import Mathlib

/-!
Verification of the billing text interpretation engine of `app/services/pdf_parser.py`
(and the response model of `app/models.py` / `app/main.py`).

The Python code is shallowly embedded: strings are Lean `String`s manipulated through
their underlying `List Char`, the specific regular expressions used by the source are
hand-implemented as character-level scanners with the same matching semantics
(case-insensitivity, word boundaries, greedy/backtracking behaviour of the concrete
patterns), Python dicts keyed by the fixed category taxonomy become functions
`String → _` updated pointwise, and mutation becomes explicit state passing.
-/

set_option maxHeartbeats 2000000
set_option maxRecDepth 4000

namespace BillingParser

/-! ### Python character classes (ASCII, as used by the documents) -/

/-- Python `\s` / `str.isspace` for the ASCII range: space, tab, LF, CR, VT, FF. -/
def pyIsSpace (c : Char) : Bool :=
  c = ' ' || c = '\t' || c = '\n' || c = '\r' || c = Char.ofNat 11 || c = Char.ofNat 12

/-- Python `\d` (ASCII). -/
def pyIsDigit (c : Char) : Bool :=
  '0' ≤ c && c ≤ '9'

/-- Python regex `\w` (ASCII): letters, digits, underscore; used for `\b` boundaries. -/
def isWordChar (c : Char) : Bool :=
  pyIsDigit c || ('A' ≤ c && c ≤ 'Z') || ('a' ≤ c && c ≤ 'z') || c = '_'

/-- Case-insensitive character comparison (ASCII), for `(?i)` patterns. -/
def ciEq (a b : Char) : Bool :=
  a.toUpper = b.toUpper

/-! ### Python string helpers -/

/-- Case-sensitive prefix test (`needle` first). -/
def prefixOfCS : List Char → List Char → Bool
  | [], _ => true
  | _ :: _, [] => false
  | a :: as, b :: bs => a = b && prefixOfCS as bs

/-- Python `needle in hay` substring containment (case sensitive). -/
def containsSubData (needle : List Char) : List Char → Bool
  | [] => prefixOfCS needle []
  | c :: cs => prefixOfCS needle (c :: cs) || containsSubData needle cs

/-- Python `sub in s` on strings. -/
def containsSubstr (s sub : String) : Bool :=
  containsSubData sub.data s.data

/-- Python `str.upper` (ASCII inputs). -/
def upperStr (s : String) : String :=
  ⟨s.data.map Char.toUpper⟩

/-- `str.splitlines` worker: accumulates the current line in reverse. -/
def splitlinesAux : List Char → List Char → List (List Char)
  | cur, [] => if cur.isEmpty then [] else [cur.reverse]
  | cur, '\r' :: '\n' :: rest => cur.reverse :: splitlinesAux [] rest
  | cur, '\r' :: rest => cur.reverse :: splitlinesAux [] rest
  | cur, '\n' :: rest => cur.reverse :: splitlinesAux [] rest
  | cur, c :: rest =>
    if c = Char.ofNat 11 || c = Char.ofNat 12 then cur.reverse :: splitlinesAux [] rest
    else splitlinesAux (c :: cur) rest

/-- Python `str.splitlines` (line-break set restricted to the ASCII breaks that occur
in extracted PDF text: LF, CR, CRLF, VT, FF). -/
def pySplitlines (s : String) : List String :=
  (splitlinesAux [] s.data).map fun l => ⟨l⟩

/-- Collapse every run of whitespace into a single space (regex `\s+` → `" "`). -/
def collapseWS : List Char → List Char
  | [] => []
  | [c] => if pyIsSpace c then [' '] else [c]
  | a :: b :: rest =>
    if pyIsSpace a && pyIsSpace b then collapseWS (b :: rest)
    else (if pyIsSpace a then ' ' else a) :: collapseWS (b :: rest)

/-- Drop the listed characters from the front of a list. -/
def dropWhileMem (set : List Char) (l : List Char) : List Char :=
  l.dropWhile fun c => set.contains c

/-- Python `str.strip(chars)`: drop the given characters from both ends. -/
def stripChars (set : List Char) (l : List Char) : List Char :=
  ((dropWhileMem set l).reverse |> dropWhileMem set).reverse

/-- Python `str.strip()` (whitespace strip). -/
def pyStrip (s : String) : String :=
  ⟨((s.data.dropWhile pyIsSpace).reverse.dropWhile pyIsSpace).reverse⟩

/-- `_squash_whitespace`: `re.sub(r"\s+", " ", text).strip()`. -/
def squash_whitespace (s : String) : String :=
  ⟨stripChars [' '] (collapseWS s.data)⟩

/-- Python `int(...)` on a nonempty string of ASCII digits. -/
def digitsToNat (l : List Char) : Nat :=
  l.foldl (fun n c => 10 * n + (c.toNat - 48)) 0

/-- Python `str.isdigit` for ASCII strings: nonempty and all digits. -/
def pyIsDigitStr (l : List Char) : Bool :=
  !l.isEmpty && l.all pyIsDigit

/-- Keep only ASCII digits (`re.sub(r"[^\d]", "", s)`). -/
def onlyDigits (l : List Char) : List Char :=
  l.filter pyIsDigit

/-- Remove all whitespace (`re.sub(r"\s+", "", s)`). -/
def removeWS (l : List Char) : List Char :=
  l.filter fun c => !pyIsSpace c

/-- Python `str.split(sep)` for a single-character separator (keeps empty pieces). -/
def splitOnChar (sep : Char) (l : List Char) : List (List Char) :=
  l.splitOn sep

/-- Python `"".join(parts)` style concatenation of char lists. -/
def joinAll (ls : List (List Char)) : List Char :=
  ls.foldr (· ++ ·) []

/-- Python `f"{n}"` for naturals (decimal digits). -/
def natToStr (n : Nat) : String :=
  Nat.repr n

/-! ### Regex scanners

Each regular expression of the source is implemented as a character-level scanner with
the same matching semantics.  Scanners carry the previous character (`prev`) so word
boundaries `\b` can be decided, and `findall`-style drivers resume after the end of the
previous match (non-overlapping, left to right), exactly like Python `re`. -/

/-- Is the character before the current position a `\w` character? -/
def isWordOpt : Option Char → Bool
  | some c => isWordChar c
  | none => false

/-- Is the character at the current position a `\w` character (end of input counts as no)? -/
def isWordHead : List Char → Bool
  | c :: _ => isWordChar c
  | [] => false

/-- Is the character at the current position an ASCII digit? -/
def isDigitHead : List Char → Bool
  | c :: _ => pyIsDigit c
  | [] => false

/-- Consume a literal case-insensitively, returning the rest. -/
def matchLitCI : List Char → List Char → Option (List Char)
  | [], l => some l
  | _ :: _, [] => none
  | p :: ps, c :: cs => if ciEq p c then matchLitCI ps cs else none

/-- `re.search` driver for a boolean matcher: try every start position. -/
def searchAux (p : Option Char → List Char → Bool) : Option Char → List Char → Bool
  | prev, [] => p prev []
  | prev, c :: cs => p prev (c :: cs) || searchAux p (some c) cs

/-- `re.search` driver returning the first match payload. -/
def searchFirstAux {α : Type} (tryAt : Option Char → List Char → Option α) :
    Option Char → List Char → Option α
  | prev, [] => tryAt prev []
  | prev, c :: cs =>
    match tryAt prev (c :: cs) with
    | some x => some x
    | none => searchFirstAux tryAt (some c) cs

/-- `re.findall` driver: collects payloads of non-overlapping matches left to right.
`tryAt` returns (payload, rest-of-input after the match, last consumed character);
every match consumes at least one character, so fuel `length + 1` suffices. -/
def scanAllAux {α : Type} (tryAt : Option Char → List Char → Option (α × List Char × Char)) :
    Nat → Option Char → List Char → List α
  | 0, _, _ => []
  | _ + 1, _, [] => []
  | fuel + 1, prev, c :: cs =>
    match tryAt prev (c :: cs) with
    | some (x, rest, lastc) => x :: scanAllAux tryAt fuel (some lastc) rest
    | none => scanAllAux tryAt fuel (some c) cs

/-- Run a findall scanner over a string. -/
def scanAll {α : Type} (tryAt : Option Char → List Char → Option (α × List Char × Char))
    (s : String) : List α :=
  scanAllAux tryAt (s.data.length + 1) none s.data

/-- Matcher for a sequence of literal words joined by `\s+` (`plus = true`) or `\s*`
(`plus = false`); returns the rest after the last word. -/
def matchWordsSep (plus : Bool) : List (List Char) → List Char → Option (List Char)
  | [], l => some l
  | [w], l => matchLitCI w l
  | w :: w2 :: ws, l =>
    match matchLitCI w l with
    | none => none
    | some rest =>
      let sp := rest.takeWhile pyIsSpace
      if plus && sp.isEmpty then none
      else matchWordsSep plus (w2 :: ws) (rest.drop sp.length)

/-- `\bW1\s+W2...\b` (or with `\s*`) at one position. -/
def wordsAt (plus : Bool) (ws : List (List Char)) (prev : Option Char) (l : List Char) : Bool :=
  !isWordOpt prev &&
    match matchWordsSep plus ws l with
    | some rest => !isWordHead rest
    | none => false

/-- `re.search((?i)\bW1\s+W2...\b, s)` (words joined by `\s+` when `plus`). -/
def searchWordsCI (plus : Bool) (ws : List String) (s : String) : Bool :=
  searchAux (wordsAt plus (ws.map String.data)) none s.data

/-- `re.search((?i)\bWORD\b, s)`; the word may contain literal inner spaces. -/
def searchWordCI (w : String) (s : String) : Bool :=
  searchAux (wordsAt false [w.data]) none s.data

/-- `\bR\s*P\b` at one position. -/
def rpWordAt (prev : Option Char) (l : List Char) : Bool :=
  !isWordOpt prev &&
    match l with
    | c :: cs =>
      ciEq c 'R' &&
        (match cs.dropWhile pyIsSpace with
         | p :: rest => ciEq p 'P' && !isWordHead rest
         | [] => false)
    | [] => false

/-- `re.search(r"\bR\s*P\b", s)` case-insensitively. -/
def searchRSpacesP (s : String) : Bool :=
  searchAux rpWordAt none s.data

/-- `(?i)\bRP\.?\s*\d` at one position. -/
def rpDigitAt (prev : Option Char) (l : List Char) : Bool :=
  !isWordOpt prev &&
    match matchLitCI [ 'R', 'P' ] l with
    | some rest =>
      let rest1 := match rest with
        | '.' :: r => r
        | r => r
      isDigitHead (rest1.dropWhile pyIsSpace)
    | none => false

/-- `re.search(r"(?i)\bRP\.?\s*\d", s)`. -/
def searchRpDigit (s : String) : Bool :=
  searchAux rpDigitAt none s.data

/-- `\bJUMLAH\b\s*(?:RP\.?|RUPIAH)\b` at one position.  After `RP`, a following `.`
always yields a match: either the `.` is consumed and a word character follows, or it
is left and itself witnesses the boundary after `P`. -/
def jumlahRpAt (prev : Option Char) (l : List Char) : Bool :=
  !isWordOpt prev &&
    match matchLitCI "JUMLAH".data l with
    | some rest =>
      !isWordHead rest &&
        (let r := rest.dropWhile pyIsSpace
         match matchLitCI [ 'R', 'P' ] r with
         | some r1 =>
           (match r1 with
            | '.' :: _ => true
            | other => !isWordHead other)
         | none =>
           match matchLitCI "RUPIAH".data r with
           | some r2 => !isWordHead r2
           | none => false)
    | none => false

/-- `re.search(r"(?i)\bJUMLAH\b\s*(?:RP\.?|RUPIAH)\b", s)`. -/
def searchJumlahRp (s : String) : Bool :=
  searchAux jumlahRpAt none s.data

/-- Characters allowed in the body of an amount token class `[0-9.,\s]`. -/
def amtClassChar (c : Char) : Bool :=
  pyIsDigit c || c = '.' || c = ',' || pyIsSpace c

/-- `(?i)\bRP\.?\s*([0-9][0-9.,\s]{0,30})` at one position, for `findall`;
returns (group 1, rest, last consumed char). -/
def tryRupiahInlineAt (prev : Option Char) (l : List Char) :
    Option (List Char × List Char × Char) :=
  if isWordOpt prev then none
  else
    match matchLitCI [ 'R', 'P' ] l with
    | none => none
    | some rest =>
      let rest1 := match rest with
        | '.' :: r => r
        | r => r
      let rest2 := rest1.dropWhile pyIsSpace
      match rest2 with
      | c :: cs =>
        if pyIsDigit c then
          let body := (cs.takeWhile amtClassChar).take 30
          some (c :: body, cs.drop body.length, (c :: body).getLastD c)
        else none
      | [] => none

/-- `_RUPIAH_INLINE_PATTERN.findall`. -/
def findRupiahInline (s : String) : List String :=
  (scanAll tryRupiahInlineAt s).map fun l => ⟨l⟩

/-- Separator class `[.,\s]` of the grouped-amount pattern. -/
def sepClassChar (c : Char) : Bool :=
  c = '.' || c = ',' || pyIsSpace c

/-- Maximal number of `[.,\s]\d{3}` groups matchable from the given position. -/
def maxSepGroups : List Char → Nat
  | s :: d1 :: d2 :: d3 :: rest =>
    if sepClassChar s && pyIsDigit d1 && pyIsDigit d2 && pyIsDigit d3 then
      1 + maxSepGroups rest
    else 0
  | _ => 0

/-- Try the optional `(?:,\d{1,2})?` followed by the lookahead `(?!\d)`, in greedy
backtracking order; returns the consumed length on success. -/
def optCommaLA : List Char → Option Nat
  | ',' :: d1 :: d2 :: rest =>
    if pyIsDigit d1 && pyIsDigit d2 && !isDigitHead rest then some 3
    else if pyIsDigit d1 && !pyIsDigit d2 then some 2
    else some 0
  | [ ',', d1 ] => if pyIsDigit d1 then some 2 else some 0
  | [ ',' ] => some 0
  | c :: _ => if pyIsDigit c then none else some 0
  | [] => some 0

/-- Branch `\d{1,3}(?:[.,\s]\d{3})+(?:,\d{1,2})?(?!\d)`: for a fixed count `k` of head
digits, try group counts `m` from the greedy maximum down to 1. -/
def amtGoM (l : List Char) (k : Nat) : Nat → Option Nat
  | 0 => none
  | m + 1 =>
    match optCommaLA (l.drop (k + 4 * (m + 1))) with
    | some t => some (k + 4 * (m + 1) + t)
    | none => amtGoM l k m

/-- Backtracking over the head-digit count `k` (greedy: 3, 2, 1). -/
def amtGoK (l : List Char) : Nat → Option Nat
  | 0 => none
  | k + 1 =>
    match amtGoM l (k + 1) (maxSepGroups (l.drop (k + 1))) with
    | some n => some n
    | none => amtGoK l k

/-- `(?<!\d)(\d{1,3}(?:[.,\s]\d{3})+(?:,\d{1,2})?|\d{5,})(?!\d)` at one position,
for `findall`. -/
def tryAmountTokenAt (prev : Option Char) (l : List Char) :
    Option (List Char × List Char × Char) :=
  if (match prev with | some c => pyIsDigit c | none => false) then none
  else
    let run := (l.takeWhile pyIsDigit).length
    if run = 0 then none
    else
      match amtGoK l (min 3 run) with
      | some n => some (l.take n, l.drop n, (l.take n).getLastD ' ')
      | none =>
        if 5 ≤ run then some (l.take run, l.drop run, (l.take run).getLastD ' ')
        else none

/-- `_AMOUNT_TOKEN_PATTERN.findall`. -/
def findAmountTokens (s : String) : List String :=
  (scanAll tryAmountTokenAt s).map fun l => ⟨l⟩

/-- Class `[\s:.\-]` of the total pattern. -/
def totClassChar (c : Char) : Bool :=
  pyIsSpace c || c = ':' || c = '.' || c = '-'

/-- Optional currency marker `(?:(?:R\s*P)|RUPIAH)?`: consumed length (0 when absent). -/
def matchCurrencyOpt (l : List Char) : Nat :=
  match l with
  | c :: cs =>
    if ciEq c 'R' then
      let sp := cs.takeWhile pyIsSpace
      match cs.drop sp.length with
      | p :: _ =>
        if ciEq p 'P' then 2 + sp.length
        else match matchLitCI "RUPIAH".data l with
          | some _ => 6
          | none => 0
      | [] =>
        match matchLitCI "RUPIAH".data l with
        | some _ => 6
        | none => 0
    else 0
  | [] => 0

/-- `_TOTAL_PATTERN` at one position: `(?is)\bTOTAL\s*TAGIHAN\b[\s:.\-]*
(?:(?:R\s*P)|RUPIAH)?[\s:.\-]*([0-9][0-9.,\s]{0,40})`; returns ((group 0, group 1),
rest, last consumed char). -/
def tryTotalAt (prev : Option Char) (l : List Char) :
    Option ((List Char × List Char) × List Char × Char) :=
  if isWordOpt prev then none
  else
    match matchLitCI "TOTAL".data l with
    | none => none
    | some r1 =>
      let r2 := r1.dropWhile pyIsSpace
      match matchLitCI "TAGIHAN".data r2 with
      | none => none
      | some r3 =>
        if isWordHead r3 then none
        else
          let r4 := r3.dropWhile totClassChar
          let cur := matchCurrencyOpt r4
          let r5 := r4.drop cur
          let r6 := r5.dropWhile totClassChar
          match r6 with
          | c :: cs =>
            if pyIsDigit c then
              let body := (cs.takeWhile amtClassChar).take 40
              let g1 := c :: body
              let g0len := l.length - (cs.drop body.length).length
              some ((l.take g0len, g1), cs.drop body.length, g1.getLastD c)
            else none
          | [] => none

/-- `_TOTAL_PATTERN.finditer`, as the list of (group 0, group 1) pairs. -/
def findTotalMatches (s : String) : List (String × String) :=
  (scanAll tryTotalAt s).map fun p => (⟨p.1⟩, ⟨p.2⟩)

/-- `(?is)\bNO\.?\s*TAGIHAN\b\D{0,12}([0-9][0-9\-\s]{5,})` at one position
(first-match search); returns group 1. -/
def tryNoTagihanAt (prev : Option Char) (l : List Char) : Option (List Char) :=
  if isWordOpt prev then none
  else
    match matchLitCI "NO".data l with
    | none => none
    | some r0 =>
      let r1 := match r0 with
        | '.' :: r => r
        | r => r
      let r2 := r1.dropWhile pyIsSpace
      match matchLitCI "TAGIHAN".data r2 with
      | none => none
      | some r3 =>
        if isWordHead r3 then none
        else
          let nd := r3.takeWhile fun c => !pyIsDigit c
          if 12 < nd.length then none
          else
            match r3.drop nd.length with
            | c :: cs =>
              let body := cs.takeWhile fun c2 => pyIsDigit c2 || c2 = '-' || pyIsSpace c2
              if 5 ≤ body.length then some (c :: body) else none
            | [] => none

/-- `\bNO\.?\s*W\b` at one position (noise patterns and record-number labels). -/
def noDotWordAt (w : List Char) (prev : Option Char) (l : List Char) : Bool :=
  !isWordOpt prev &&
    match matchLitCI "NO".data l with
    | some r0 =>
      let r1 := match r0 with
        | '.' :: r => r
        | r => r
      match matchLitCI w (r1.dropWhile pyIsSpace) with
      | some r2 => !isWordHead r2
      | none => false
    | none => false

/-- `re.search(r"\bNO\.?\s*W\b", s)` case-insensitively. -/
def searchNoDotWord (w : String) (s : String) : Bool :=
  searchAux (noDotWordAt w.data) none s.data

/-- Consume exactly `n` ASCII digits. -/
def takeDigits (n : Nat) (l : List Char) : Option (List Char) :=
  if (l.take n).length = n && (l.take n).all pyIsDigit then some (l.drop n) else none

/-- Date separator class `[/.-]`. -/
def dateSep : List Char → Option (List Char)
  | c :: cs => if c = '/' || c = '.' || c = '-' then some cs else none
  | [] => none

/-- `\d{2,4}\b` tail of the date pattern (greedy). -/
def dateTail (l : List Char) : Bool :=
  (match takeDigits 4 l with | some r => !isWordHead r | none => false) ||
  (match takeDigits 3 l with | some r => !isWordHead r | none => false) ||
  (match takeDigits 2 l with | some r => !isWordHead r | none => false)

/-- `[/.-]\d{2,4}\b` of the date pattern. -/
def dateSec (l : List Char) : Bool :=
  match dateSep l with
  | some r => dateTail r
  | none => false

/-- `[/.-]\d{1,2}[/.-]\d{2,4}\b` of the date pattern. -/
def dateMid (l : List Char) : Bool :=
  match dateSep l with
  | some r1 =>
    (match takeDigits 2 r1 with | some r2 => dateSec r2 | none => false) ||
    (match takeDigits 1 r1 with | some r2 => dateSec r2 | none => false)
  | none => false

/-- `\b(?:\d{1,2}[/.-]\d{1,2}[/.-]\d{2,4})\b` at one position. -/
def dateAt (prev : Option Char) (l : List Char) : Bool :=
  !isWordOpt prev &&
    ((match takeDigits 2 l with | some r => dateMid r | none => false) ||
     (match takeDigits 1 l with | some r => dateMid r | none => false))

/-- `re.search` of the date pattern. -/
def searchDatePat (s : String) : Bool :=
  searchAux dateAt none s.data

/-- `(?::\d{2})?\b` tail of the time pattern (greedy optional seconds). -/
def timeTail (l : List Char) : Bool :=
  (match l with
   | ':' :: r => (match takeDigits 2 r with | some r2 => !isWordHead r2 | none => false)
   | _ => false) ||
  !isWordHead l

/-- `\b\d{1,2}[:.]\d{2}(?::\d{2})?\b` at one position. -/
def timeAt (prev : Option Char) (l : List Char) : Bool :=
  !isWordOpt prev &&
    ((match takeDigits 2 l with | some r => timeAfterNum r | none => false) ||
     (match takeDigits 1 l with | some r => timeAfterNum r | none => false))
where
  timeAfterNum (l2 : List Char) : Bool :=
    match l2 with
    | c :: cs =>
      (c = ':' || c = '.') &&
        (match takeDigits 2 cs with | some r => timeTail r | none => false)
    | [] => false

/-- `re.search` of the time pattern. -/
def searchTimePat (s : String) : Bool :=
  searchAux timeAt none s.data

/-- `\bINA-?CBG\b` at one position. -/
def inaCbgAt (prev : Option Char) (l : List Char) : Bool :=
  !isWordOpt prev &&
    match matchLitCI "INA".data l with
    | some r0 =>
      let r1 := match r0 with
        | '-' :: r => r
        | r => r
      match matchLitCI "CBG".data r1 with
      | some r2 => !isWordHead r2
      | none => false
    | none => false

/-- `re.search(r"\bINA-?CBG\b|\bICD\b|\bGROUPING\b", s)`. -/
def searchKodingPat (s : String) : Bool :=
  searchAux inaCbgAt none s.data || searchWordCI "ICD" s || searchWordCI "GROUPING" s

/-- `https?://` at one position (no boundary in the pattern). -/
def httpAt (_prev : Option Char) (l : List Char) : Bool :=
  match matchLitCI "HTTP".data l with
  | some r0 =>
    let r1 := match r0 with
      | c :: r => if ciEq c 'S' then r else r0
      | [] => r0
    (matchLitCI "://".data r1).isSome
  | none => false

/-- `re.search(r"https?://", s, flags=re.IGNORECASE)`. -/
def searchHttpUrl (s : String) : Bool :=
  searchAux httpAt none s.data

/-! ### Amount parsing and validation (`_parse_rupiah_amount`, `_is_valid_total_candidate`,
`_extract_amount_from_line`, `_canonical_line_key`, `_format_rupiah`) -/

/-- `_parse_rupiah_amount`: tolerate `.`/`,`/space separators and an optional
1–2 digit decimal part after the last comma. -/
def parse_rupiah_amount (amount_token : String) : Option Nat :=
  let compact := removeWS amount_token.data
  if compact.isEmpty then none
  else
    let compact2 :=
      if compact.contains ',' then
        let parts := splitOnChar ',' compact
        if 1 < parts.length && pyIsDigitStr (parts.getLastD []) && (parts.getLastD []).length ≤ 2 then
          joinAll parts.dropLast
        else compact
      else compact
    let digits := onlyDigits compact2
    if digits.isEmpty then none else some (digitsToNat digits)

/-- Insert `.` thousands separators into a reversed digit list. -/
def formatRupiahDigits : List Char → List Char
  | a :: b :: c :: d :: rest => a :: b :: c :: '.' :: formatRupiahDigits (d :: rest)
  | l => l

/-- `_format_rupiah`: `f"Rp {value:,}".replace(",", ".")`. -/
def format_rupiah (value : Nat) : String :=
  "Rp " ++ ⟨(formatRupiahDigits (natToStr value).data.reverse).reverse⟩

/-- `_canonical_line_key`: squash, uppercase, blank out digits and non-letters, squash. -/
def canonical_line_key (text : String) : String :=
  let compact := (upperStr (squash_whitespace text)).data
  let compact2 := compact.map fun c => if pyIsDigit c then ' ' else c
  let compact3 := compact2.map fun c => if ('A' ≤ c && c ≤ 'Z') || pyIsSpace c then c else ' '
  squash_whitespace ⟨compact3⟩

/-- The `has_separator` test of `_is_valid_total_candidate`: `re.search(r"[.,]", compact)`
on the whitespace-stripped token. -/
def hasSeparatorTok (amount_token : String) : Bool :=
  (removeWS amount_token.data).any fun c => c = '.' || c = ','

/-- The `has_rupiah_hint` test of `_is_valid_total_candidate`: `\bR\s*P\b` or `\bRUPIAH\b`
in the squashed upper-cased context. -/
def hasRupiahHint (context : String) : Bool :=
  let n := upperStr (squash_whitespace context)
  searchRSpacesP n || searchWordCI "RUPIAH" n

/-- The `digits_only` value of `_is_valid_total_candidate`. -/
def digitsOnlyTok (amount_token : String) : List Char :=
  onlyDigits (removeWS amount_token.data)

/-- `_is_valid_total_candidate`. -/
def is_valid_total_candidate (amount_token : String) (parsed_amount : Nat) (context : String) :
    Bool :=
  if parsed_amount = 0 || 999999999 < parsed_amount then false
  else
    let normalized_context := upperStr (squash_whitespace context)
    if containsSubstr normalized_context "NO TAGIHAN" ||
        containsSubstr normalized_context "NO. TAGIHAN" then false
    else if containsSubstr normalized_context "RAWAT JALAN [" ||
        containsSubstr normalized_context "RAWAT INAP [" then false
    else if !hasRupiahHint context && !hasSeparatorTok amount_token then false
    else if !hasSeparatorTok amount_token && 9 ≤ (digitsOnlyTok amount_token).length &&
        !hasRupiahHint context then false
    else true

/-- `_extract_amount_from_line`: last plausible rupiah amount on a line. -/
def extract_amount_from_line (line : String) : Option Nat :=
  let rupiah_tokens := findRupiahInline line
  let rupiah_values := rupiah_tokens.filterMap parse_rupiah_amount
  match rupiah_values.getLast? with
  | some v => some v
  | none =>
    let amount_tokens := findAmountTokens line
    if amount_tokens.isEmpty then none
    else
      let upper_line := upperStr line
      let has_rupiah_hint := searchRSpacesP upper_line || searchWordCI "RUPIAH" upper_line
      let parsed_values := amount_tokens.filterMap fun token =>
        match parse_rupiah_amount token with
        | none => none
        | some value =>
          let compact := removeWS token.data
          let digits_only := onlyDigits compact
          let has_separator := compact.any fun c => c = '.' || c = ','
          if value = 0 || 500000000 < value then none
          else if !has_rupiah_hint && !has_separator &&
              !(searchWordCI "JUMLAH" upper_line || searchWordCI "TOTAL" upper_line ||
                searchWordCI "SUBTOTAL" upper_line) then none
          else if !has_rupiah_hint && !has_separator && 8 ≤ digits_only.length then none
          else if !has_rupiah_hint &&
              (searchNoDotWord "TAGIHAN" upper_line || searchNoDotWord "REKAM" upper_line ||
               searchNoDotWord "SEP" upper_line || searchNoDotWord "RM" upper_line) then none
          else if !has_rupiah_hint &&
              (searchWordCI "UMUR" upper_line || searchWordCI "TAHUN" upper_line ||
               searchWordCI "HARI" upper_line || searchWordCI "TGL" upper_line ||
               searchWordCI "TANGGAL" upper_line || searchWordCI "TELEPON" upper_line ||
               searchWordCI "TELP" upper_line || searchWordCI "JAM MASUK" upper_line ||
               searchWordCI "JAM KELUAR" upper_line) then none
          else some value
      parsed_values.getLast?

/-! ### Total extraction (`extract_total_tagihan`) -/

/-- The nonempty squashed lines of a text:
`[_squash_whitespace(line) for line in text.splitlines() if line.strip()]`. -/
def squashedLines (text : String) : List String :=
  (pySplitlines text).filterMap fun line =>
    if (pyStrip line).data.isEmpty then none else some (squash_whitespace line)

/-- One labeled-pattern candidate step of `extract_total_tagihan`'s first loop. -/
def totalLabeledStep (sel : Option String × Option Nat) (m : String × String) :
    Option String × Option Nat :=
  match parse_rupiah_amount m.2 with
  | none => sel
  | some parsed =>
    let candidate_raw := squash_whitespace m.1
    if is_valid_total_candidate m.2 parsed candidate_raw then (some candidate_raw, some parsed)
    else sel

/-- One token step of `extract_total_tagihan`'s line-based fallback loop. -/
def totalFallbackTokStep (raw_phrase : String) (sel : Option String × Option Nat)
    (tok : String) : Option String × Option Nat :=
  match parse_rupiah_amount tok with
  | none => sel
  | some parsed =>
    if is_valid_total_candidate tok parsed raw_phrase then (some raw_phrase, some parsed)
    else sel

/-- One line step of `extract_total_tagihan`'s fallback loop. -/
def totalFallbackLineStep (lines : List String) (sel : Option String × Option Nat)
    (index : Nat) : Option String × Option Nat :=
  let line := lines.getD index ""
  if !(searchWordCI "TOTAL" line) || !(searchWordCI "TAGIHAN" line) then sel
  else
    let toks0 := findRupiahInline line
    let toks1 := if toks0.isEmpty then findAmountTokens line else toks0
    let next :=
      if toks1.isEmpty && index + 1 < lines.length then
        let next_line := lines.getD (index + 1) ""
        let nx0 := findRupiahInline next_line
        let nx1 := if nx0.isEmpty then findAmountTokens next_line else nx0
        (nx1, line ++ " " ++ next_line)
      else (toks1, line)
    next.1.foldl (totalFallbackTokStep next.2) sel

/-- `extract_total_tagihan`: labeled pattern first (last valid match wins), then
line-based fallback scanning. -/
def extract_total_tagihan (text : String) : Option String × Option Nat :=
  let first := (findTotalMatches text).foldl totalLabeledStep (none, none)
  if first.2.isSome then first
  else
    let lines := squashedLines text
    (List.range lines.length).foldl (totalFallbackLineStep lines) first

/-! ### Component category extractor (`_COMPONENT_ALIASES`, `extract_billing_components`) -/

/-- One entry of the component map (`{"label": …, "ditemukan": …, "nilai_raw": …,
"nilai_int": …}`). -/
structure CompEntry where
  label : String
  ditemukan : Bool
  nilai_raw : Option String
  nilai_int : Option Nat
deriving Repr, DecidableEq

/-- `_COMPONENT_ALIASES`, in insertion (iteration) order. -/
def componentAliasList : List (String × List String) :=
  [ ("prosedur_non_bedah",
      ["PROSEDUR NON BEDAH", "TINDAKAN NON BEDAH", "TINDAKAN NON-BEDAH", "KATETERISASI",
       "ENDOSKOPI", "BRONKOSKOPI"]),
    ("prosedur_bedah",
      ["PROSEDUR BEDAH", "TINDAKAN BEDAH", "OPERASI", "KAMAR OPERASI", "PEMBEDAHAN"]),
    ("konsultasi",
      ["KONSULTASI", "KONSUL", "VISITE", "PEMERIKSAAN DOKTER", "JASA DOKTER",
       "DOKTER SPESIALIS"]),
    ("tenaga_ahli",
      ["TENAGA AHLI", "NUTRISIONIS", "FISIOTERAPIS", "DIETISIAN", "PSIKOLOG", "TERAPIS"]),
    ("keperawatan",
      ["KEPERAWATAN", "ASUHAN KEPERAWATAN", "TINDAKAN KEPERAWATAN", "JASA PERAWAT"]),
    ("penunjang", ["PENUNJANG", "PENUNJANG MEDIK", "EKG", "ECG", "ECHO", "HOLTER"]),
    ("radiologi", ["RADIOLOGI", "RONTGEN", "X-RAY", "USG", "MRI", "CT SCAN", "ANGIOGRAM"]),
    ("laboratorium", ["LABORATORIUM", "LABORAT", "HEMATOLOGI", "MIKROBIOLOGI", "PATOLOGI"]),
    ("pelayanan_darah", ["PELAYANAN DARAH", "TRANSFUSI", "PRC", "PACKED RED CELL"]),
    ("rehabilitasi", ["REHABILITASI", "FISIOTERAPI", "TERAPI OKUPASI", "REHAB"]),
    ("kamar_akomodasi", ["KAMAR", "AKOMODASI", "RUANG RANAP", "BED", "ADMISI"]),
    ("rawat_intensif", ["RAWAT INTENSIF", "ICU", "ICCU", "NICU", "PICU", "HCU"]),
    ("obat", ["OBAT", "FARMASI", "APOTIK", "MEDIKASI"]),
    ("obat_kronis", ["OBAT KRONIS", "KRONIS"]),
    ("obat_kemoterapi", ["OBAT KEMOTERAPI", "KEMOTERAPI", "SITOSTATIKA"]),
    ("alkes", ["ALKES", "ALAT KESEHATAN", "STENT", "IMPLAN"]),
    ("bmhp",
      ["BMHP", "BHP", "BAHAN MEDIS HABIS PAKAI", "BAHAN HABIS PAKAI", "OKSIGEN", "ALKOHOL",
       "JELLY"]),
    ("sewa_alat",
      ["SEWA ALAT", "SEWA ALKES", "VENTILATOR", "NEBULIZER", "POMPA SUNTIK", "INFUS PUMP"]) ]

/-- The fixed category keys (`COMPONENT_FIELD_KEYS`), in order. -/
def componentKeys : List String :=
  componentAliasList.map Prod.fst

/-- Alias lookup for one category. -/
def componentAliases (key : String) : List String :=
  (componentAliasList.lookup key).getD []

/-- `_COMPONENT_LABELS`. -/
def componentLabelList : List (String × String) :=
  [ ("prosedur_non_bedah", "Prosedur Non Bedah"), ("prosedur_bedah", "Prosedur Bedah"),
    ("konsultasi", "Konsultasi"), ("tenaga_ahli", "Tenaga Ahli"),
    ("keperawatan", "Keperawatan"), ("penunjang", "Penunjang"), ("radiologi", "Radiologi"),
    ("laboratorium", "Laboratorium"), ("pelayanan_darah", "Pelayanan Darah"),
    ("rehabilitasi", "Rehabilitasi"), ("kamar_akomodasi", "Kamar/Akomodasi"),
    ("rawat_intensif", "Rawat Intensif"), ("obat", "Obat"), ("obat_kronis", "Obat Kronis"),
    ("obat_kemoterapi", "Obat Kemoterapi"), ("alkes", "Alkes"), ("bmhp", "BMHP"),
    ("sewa_alat", "Sewa Alat") ]

/-- Display label of one category. -/
def componentLabel (key : String) : String :=
  (componentLabelList.lookup key).getD ""

/-- `_SUMMARY_STRATEGY.get(key, "hybrid")`. -/
def summaryStrategy (key : String) : String :=
  if key = "radiologi" || key = "penunjang" || key = "obat" then "sum_summary"
  else if key = "kamar_akomodasi" || key = "rawat_intensif" then "max_summary"
  else "hybrid"

/-- The cap on candidate amounts:
`max(2_000_000, int(total_tagihan_int * 1.5)) if isinstance(total_tagihan_int, int)
else 10_000_000`.  For `t ≤ 10^9` the float product `t * 1.5` is exact, so
`int(t * 1.5) = 3 * t / 2` (floor division). -/
def amountCapFor (total_tagihan_int : Option Nat) : Nat :=
  match total_tagihan_int with
  | some t => max 2000000 (3 * t / 2)
  | none => 10000000

/-- Pointwise update of a string-keyed map. -/
def upd {α : Type} (f : String → α) (k : String) (v : α) : String → α :=
  fun x => if x = k then v else f x

/-- Mutable state of the line loop of `extract_billing_components`. -/
structure ScanState where
  results : String → CompEntry
  tracker : String → List (Nat × String × Bool)
  currentSection : Option String

/-- The initial `results` dict (every category unfound). -/
def initComponents : String → CompEntry :=
  fun key => ⟨componentLabel key, false, none, none⟩

/-- Initial loop state. -/
def initScanState : ScanState :=
  ⟨initComponents, fun _ => [], none⟩

/-- `matched_header_keys`: categories with an alias contained in the upper-cased line,
in taxonomy order. -/
def matchedHeaderKeys (upper_line : String) : List String :=
  (componentAliasList.filter fun p => p.2.any fun al => containsSubstr upper_line al).map
    Prod.fst

/-- `has_recent_section_header` (window 25): a plain header for the section appears
shortly before the current line (alias present, no `Rp`-digit, no extractable amount). -/
def hasRecentSectionHeader (lines upperLines : List String) (sectionKey : String)
    (currentIndex : Nat) : Bool :=
  let aliases := componentAliases sectionKey
  if aliases.isEmpty then false
  else
    ((List.range currentIndex).drop (currentIndex - 25)).any fun prevIndex =>
      let prev_line := lines.getD prevIndex ""
      let prev_upper := upperLines.getD prevIndex ""
      (aliases.any fun a => containsSubstr prev_upper a) &&
        !searchRpDigit prev_line &&
        (extract_amount_from_line prev_line).isNone

/-- The (raw line, amount) selection of the `for key in matched_header_keys` body:
the amount on this line, or the next line's amount when this line has none and the
next line is not itself a section header. -/
def headerAmountStage (lines upperLines : List String) (index : Nat) (line : String) :
    String × Option Nat :=
  match extract_amount_from_line line with
  | some v => (line, some v)
  | none =>
    if index + 1 < lines.length then
      let next_line := lines.getD (index + 1) ""
      let next_upper := upperLines.getD (index + 1) ""
      let next_is_component_header :=
        componentAliasList.any fun p => p.2.any fun al => containsSubstr next_upper al
      match extract_amount_from_line next_line with
      | some nv =>
        if !next_is_component_header then (line ++ " " ++ next_line, some nv)
        else (line, none)
      | none => (line, none)
    else (line, none)

/-- Body of `for key in matched_header_keys`: mark found, then attach the staged
amount when it passes the cap and the `Rp` check. -/
def componentHeaderStep (lines upperLines : List String) (amount_cap : Nat) (index : Nat)
    (line _upper_line : String) (st : ScanState) (key : String) : ScanState :=
  let current1 := { st.results key with ditemukan := true }
  let stage := headerAmountStage lines upperLines index line
  let raw_line := stage.1
  match stage.2 with
  | some amount_value =>
    if amount_cap < amount_value then
      { st with results := upd st.results key current1 }
    else
      let tr :=
        if searchRpDigit raw_line then
          upd st.tracker key (st.tracker key ++ [(amount_value, raw_line, false)])
        else st.tracker
      let current2 :=
        if current1.nilai_raw.isNone then { current1 with nilai_raw := some raw_line }
        else current1
      { st with results := upd st.results key current2, tracker := tr }
  | none =>
    let current2 :=
      if current1.nilai_raw.isNone then { current1 with nilai_raw := some raw_line }
      else current1
    { st with results := upd st.results key current2 }

/-- The `current_section_key` update from the matched header keys. -/
def sectionUpdate (st : ScanState) (matched : List String) : ScanState :=
  match matched with
  | [] => st
  | m :: _ => { st with currentSection := some m }

/-- The `summary_key` selection: the first aliased category on a `JUMLAH` line, else
the current section (guarded against ambiguous bare `Jumlah Rp.` lines unless a
recent plain section header exists). -/
def summaryKeyFor (lines upperLines : List String) (index : Nat) (line upper_line : String)
    (matched : List String) (currentSection : Option String) : Option String :=
  if containsSubstr upper_line "JUMLAH" then
    match matched with
    | m :: _ => some m
    | [] =>
      match currentSection with
      | none => none
      | some cs =>
        if !searchJumlahRp line then some cs
        else if hasRecentSectionHeader lines upperLines cs index then some cs
        else none
  else none

/-- The section-subtotal recording step: a plausible `Rp`-bearing capped amount on a
summary line marks the section found and appends a summary record. -/
def summaryUpdate (amount_cap : Nat) (line : String) (summary_key : Option String)
    (st : ScanState) : ScanState :=
  match summary_key with
  | none => st
  | some sk =>
    match extract_amount_from_line line with
    | some amount_on_summary =>
      if amount_on_summary ≤ amount_cap && searchRpDigit line then
        { results := upd st.results sk
            { st.results sk with
                ditemukan := true
                nilai_raw := some line }
          tracker := upd st.tracker sk (st.tracker sk ++ [(amount_on_summary, line, true)])
          currentSection := some sk }
      else st
    | none => st

/-- One iteration of the line loop of `extract_billing_components`. -/
def componentLineStep (lines upperLines : List String) (amount_cap : Nat)
    (st : ScanState) (index : Nat) : ScanState :=
  let line := lines.getD index ""
  let upper_line := upperLines.getD index ""
  let matched := matchedHeaderKeys upper_line
  let st1 := sectionUpdate st matched
  let st2 := summaryUpdate amount_cap line
    (summaryKeyFor lines upperLines index line upper_line matched st1.currentSection) st1
  matched.foldl (componentHeaderStep lines upperLines amount_cap index line upper_line) st2

/-- The full line loop over a text. -/
def componentScan (text : String) (amount_cap : Nat) : ScanState :=
  let lines := squashedLines text
  let upperLines := lines.map upperStr
  (List.range lines.length).foldl (componentLineStep lines upperLines amount_cap) initScanState

/-- Dedup key `f"{amount}|{canonical}"`. -/
def dedupKey (amount : Nat) (raw : String) : String :=
  natToStr amount ++ "|" ++ canonical_line_key raw

/-- The insertion-ordered dedup dict keyed by `f"{amount}|{canonical}"`, keeping the
larger amount on key collision (the key embeds the amount, so collisions carry equal
amounts; the replacement branch mirrors the source). -/
def dedupAmounts (records : List (Nat × String)) : List (String × Nat) :=
  records.foldl
    (fun acc p =>
      let k := dedupKey p.1 p.2
      match acc.lookup k with
      | none => acc ++ [(k, p.1)]
      | some existing =>
        if existing < p.1 then acc.map fun q => if q.1 = k then (k, p.1) else q
        else acc)
    []

/-- Python `max(records, key=lambda item: item[0])`: first maximum by amount. -/
def firstMaxByAmount (records : List (Nat × String × Bool)) (dflt : Nat × String × Bool) :
    Nat × String × Bool :=
  match records with
  | [] => dflt
  | r :: rs => rs.foldl (fun best q => if best.1 < q.1 then q else best) r

/-- The per-category reconciliation loop body of `extract_billing_components`. -/
def reconcileEntry (amount_cap : Nat) (key : String) (e : CompEntry)
    (records : List (Nat × String × Bool)) : CompEntry :=
  if records.isEmpty then e
  else
    let item_records := records.filter fun r => !r.2.2
    let dedup_item := dedupAmounts (item_records.map fun r => (r.1, r.2.1))
    let dedup_item_sum := (dedup_item.map Prod.snd).sum
    let summary_records := records.filter fun r => r.2.2
    if !summary_records.isEmpty then
      let unique_summary := dedupAmounts (summary_records.map fun r => (r.1, r.2.1))
      let summary_sum := (unique_summary.map Prod.snd).sum
      let smax := firstMaxByAmount summary_records (0, "", true)
      let strategy := summaryStrategy key
      if strategy = "sum_summary" then
        { e with nilai_int := some summary_sum, nilai_raw := some smax.2.1 }
      else if strategy = "max_summary" then
        { e with nilai_int := some smax.1, nilai_raw := some smax.2.1 }
      else
        let chosen_sum :=
          if summary_sum < dedup_item_sum && dedup_item_sum ≤ amount_cap &&
              (summary_sum = 0 || dedup_item_sum ≤ summary_sum * 3) then dedup_item_sum
          else summary_sum
        { e with nilai_int := some chosen_sum, nilai_raw := some smax.2.1 }
    else
      if !dedup_item.isEmpty then
        if key = "kamar_akomodasi" || key = "rawat_intensif" then
          { e with nilai_int := some ((dedup_item.map Prod.snd).foldl max 0) }
        else { e with nilai_int := some dedup_item_sum }
      else e

/-- `extract_billing_components`. -/
def extract_billing_components (text : String) (total_tagihan_int : Option Nat) :
    String → CompEntry :=
  let amount_cap := amountCapFor total_tagihan_int
  let st := componentScan text amount_cap
  fun key => reconcileEntry amount_cap key (st.results key) (st.tracker key)

/-- `_component_hit_count`. -/
def component_hit_count (components : String → CompEntry) : Nat :=
  (componentKeys.filter fun k => (components k).ditemukan).length

/-! ### Conservative component fallbacks (`_sum_amount_by_keywords`,
`_apply_component_fallbacks`) -/

/-- `_NON_BEDAH_FALLBACK_KEYWORDS`. -/
def nonBedahFallbackKeywords : List String :=
  ["PASANG INFUS", "PEMASANGAN INFUS", "PENGAMBILAN DARAH VENA", "INJEKSI INTRA CUTAN",
   "SUBCUTAN", "INTRAMUSKULAR", "INTRAVENA PER HARI"]

/-- `_NON_BEDAH_FALLBACK_EXCLUDE_KEYWORDS`. -/
def nonBedahFallbackExclude : List String :=
  ["OMEPRAZ", "ONDANSETRON", "METAMIZOL", "PARACETAMOL", "RANITID", "ANTASIDA", "TABLET",
   "KAPSUL", "SYRUP", "SIRUP"]

/-- `_BMHP_FALLBACK_KEYWORDS`. -/
def bmhpFallbackKeywords : List String :=
  ["SYRINGE", "SPUIT", "INFUSET", "INFUS SET", "IV CATHETER", "CANNULA", "NEEDLE",
   "DISPOSABLE", "KASSA", "JELLY", "ALKOHOL", "OKSIGEN"]

/-- `_BMHP_FALLBACK_EXCLUDE_KEYWORDS`. -/
def bmhpFallbackExclude : List String :=
  ["JUMLAH LABORATORIUM", "JUMLAH RADIOLOGI"]

/-- One line of the `_sum_amount_by_keywords` loop (state: seen dedup keys, collected
(amount, line) hits). -/
def sumAmountStep (cap : Nat) (include_keywords exclude_keywords : List String)
    (acc : List String × List (Nat × String)) (line : String) :
    List String × List (Nat × String) :=
  let upper := upperStr line
  if !(include_keywords.any fun kw => containsSubstr upper kw) then acc
  else if !exclude_keywords.isEmpty && (exclude_keywords.any fun kw => containsSubstr upper kw)
    then acc
  else if !searchRpDigit line then acc
  else
    match extract_amount_from_line line with
    | none => acc
    | some amount =>
      if amount = 0 || cap < amount then acc
      else
        let k := dedupKey amount line
        if acc.1.contains k then acc
        else (acc.1 ++ [k], acc.2 ++ [(amount, line)])

/-- The deduplicated keyword-filtered line hits of `_sum_amount_by_keywords`. -/
def sumAmountHits (text : String) (include_keywords exclude_keywords : List String)
    (cap : Nat) : List (Nat × String) :=
  ((squashedLines text).foldl (sumAmountStep cap include_keywords exclude_keywords)
    ([], [])).2

/-- `_sum_amount_by_keywords`: (total, raw lines). -/
def sum_amount_by_keywords (text : String) (include_keywords exclude_keywords : List String)
    (cap : Nat) : Nat × List String :=
  let hits := sumAmountHits text include_keywords exclude_keywords cap
  ((hits.map Prod.fst).sum, hits.map Prod.snd)

/-- Key `( (0 if "JUMLAH" in upper else 1), len(line) )` of `_pick_fallback_raw_line`. -/
def fallbackLineKey (line : String) : Nat × Nat :=
  ((if containsSubstr (upperStr line) "JUMLAH" then 0 else 1), line.length)

/-- Strict lexicographic order on the pair keys. -/
def keyLtPair (a b : Nat × Nat) : Bool :=
  a.1 < b.1 || (a.1 = b.1 && a.2 < b.2)

/-- `_pick_fallback_raw_line`: first element with the maximal key under the stable
descending sort (`sorted(..., reverse=True)[0]`). -/
def pick_fallback_raw_line (lines : List String) : Option String :=
  lines.foldl
    (fun best line =>
      match best with
      | none => some line
      | some b => if keyLtPair (fallbackLineKey b) (fallbackLineKey line) then some line else best)
    none

/-- `re.search(r"(?i)\bJUMLAH\b.*\b(FARMASI|APOTIK|OBAT)\b", s)` (the dot does not
cross newlines). -/
def jumlahThenWordAt (prev : Option Char) (l : List Char) : Bool :=
  !isWordOpt prev &&
    match matchLitCI "JUMLAH".data l with
    | some rest =>
      !isWordHead rest &&
        (let sameLine := rest.takeWhile fun c => c ≠ '\n'
         searchAux (wordsAt false [ "FARMASI".data ]) (some 'H') sameLine ||
         searchAux (wordsAt false [ "APOTIK".data ]) (some 'H') sameLine ||
         searchAux (wordsAt false [ "OBAT".data ]) (some 'H') sameLine)
    | none => false

/-- Search driver for the `JUMLAH … FARMASI|APOTIK|OBAT` pattern. -/
def searchJumlahFarmasi (s : String) : Bool :=
  searchAux jumlahThenWordAt none s.data

/-- The non-bedah branch of `_apply_component_fallbacks`. -/
def nonBedahFallback (text : String) (cap : Nat) (components : String → CompEntry) :
    String → CompEntry :=
  let non_bedah := components "prosedur_non_bedah"
  if non_bedah.nilai_int.isNone then
    let r := sum_amount_by_keywords text nonBedahFallbackKeywords nonBedahFallbackExclude cap
    if 0 < r.1 then
      upd components "prosedur_non_bedah"
        { non_bedah with
            ditemukan := true
            nilai_int := some r.1
            nilai_raw := pick_fallback_raw_line r.2 }
    else components
  else components

/-- The BMHP branch of `_apply_component_fallbacks`: the updated map, whether the
fallback was applied, and the (possibly pre-existing) BMHP amount. -/
def bmhpFallback (text : String) (cap : Nat) (c1 : String → CompEntry) :
    (String → CompEntry) × Bool × Option Nat :=
  let bmhp := c1 "bmhp"
  match bmhp.nilai_int with
  | some v => (c1, false, some v)
  | none =>
    let r := sum_amount_by_keywords text bmhpFallbackKeywords bmhpFallbackExclude cap
    if 0 < r.1 then
      (upd c1 "bmhp"
        { bmhp with
            ditemukan := true
            nilai_int := some r.1
            nilai_raw := pick_fallback_raw_line r.2 }, true, some r.1)
    else (c1, false, none)

/-- The obat adjustment of `_apply_component_fallbacks` (early `return`s become
fall-throughs). -/
def obatAdjust (s : (String → CompEntry) × Bool × Option Nat) : String → CompEntry :=
  let c2 := s.1
  let obat := c2 "obat"
  if !s.2.1 then c2
  else
    match obat.nilai_int with
    | none => c2
    | some obat_amount =>
      match s.2.2 with
      | none => c2
      | some bmhp_amount =>
        if obat_amount ≤ bmhp_amount then c2
        else
          match obat.nilai_raw with
          | some obat_raw =>
            if !searchJumlahFarmasi obat_raw then c2
            else
              -- `obat_amount > bmhp_amount`, so `adjusted_amount <= 0` cannot fire;
              -- the guard is kept to mirror the source.
              let adjusted := obat_amount - bmhp_amount
              if adjusted = 0 then c2
              else
                upd c2 "obat"
                  { obat with
                      nilai_int := some adjusted
                      nilai_raw := some (obat_raw ++ " (dikurangi BMHP " ++
                        format_rupiah bmhp_amount ++ ")") }
          | none => c2

/-- `_apply_component_fallbacks`, as a pure transformation of the component map. -/
def apply_component_fallbacks (text : String) (components : String → CompEntry)
    (total_tagihan_int : Option Nat) : String → CompEntry :=
  let cap := amountCapFor total_tagihan_int
  obatAdjust (bmhpFallback text cap (nonBedahFallback text cap components))

/-! ### Name extraction (`_clean_name_candidate`, `_is_tail_noise_token`,
`_is_probable_patient_name`, `extract_nama`) -/

/-- `_NAME_STOP_KEYWORDS`. -/
def nameStopKeywords : List String :=
  ["TGL", "TAGIHAN", "CARA", "BAYAR", "JENIS", "KELAMIN", "NO", "REKAM", "MEDIS", "ALAMAT",
   "UMUR", "DOKTER", "PENJAMIN", "RUANG", "KELAS", "NIK", "DIAGNOSA", "RAWAT", "POLI", "RM",
   "TOTAL", "BIAYA", "RINCIAN"]

/-- `_NAME_BLOCKLIST_PHRASES`. -/
def nameBlocklistPhrases : List String :=
  ["RUMAH SAKIT", "RSUD", "RS ", " INSTALASI ", " POLIKLINIK ", " PELAYANAN "]

/-- `_NAME_EXACT_BLOCKLIST`. -/
def nameExactBlocklist : List String :=
  ["PASIEN", "KELUARGA PASIEN", "PASIEN KELUARGA PASIEN", "PASIEN KELUARGA", "PESERTA",
   "PESERTA MANDIRI", "PEKERJA MANDIRI", "PBI JAMINAN KESEHATAN"]

/-- `_NAME_TAIL_NOISE_EXACT`. -/
def nameTailNoiseExact : List String :=
  ["TOL", "TOI", "TGI", "T6L", "7GL", "N0"]

/-- `_NAME_TAIL_FUZZY_TARGETS`. -/
def nameTailFuzzyTargets : List String :=
  ["TGL", "TAGIHAN", "NO", "NOMOR", "RM"]

/-- ASCII letter test (`[A-Za-z]`). -/
def isAsciiLetter (c : Char) : Bool :=
  ('A' ≤ c && c ≤ 'Z') || ('a' ≤ c && c ≤ 'z')

/-! `difflib.SequenceMatcher(None, a, b).ratio()`.  The matcher repeatedly takes the
longest common contiguous block of the current ranges (ties resolved by the smallest
end position in `a`, then in `b`, which is how the `j2len` scan of `find_longest_match`
updates on strict improvement only), recurses on both sides, and sums the block sizes
`M`; the ratio is `2M / (len(a) + len(b))`.  The strings compared here have at most 6
and 7 characters, so no junk/autojunk applies and the float comparison with `0.72` is
the exact rational comparison (`2M/T = 18/25` would force `25 ∣ T`, impossible for
`T ≤ 13`, and the rounding error of one double division cannot bridge the gap). -/

/-- Length of the longest common suffix of two lists. -/
def commonSuffixLen (x y : List Char) : Nat :=
  ((x.reverse.zip y.reverse).takeWhile fun p => p.1 = p.2).length

/-- Length of the longest common block of `a[alo:ahi)`/`b[blo:bhi)` ending at
end-exclusive positions `i`/`j`. -/
def lcsBlockLen (a b : List Char) (alo blo i j : Nat) : Nat :=
  min (commonSuffixLen (a.take i) (b.take j)) (min (i - alo) (j - blo))

/-- `find_longest_match` over the given ranges: (start in `a`, start in `b`, size). -/
def findLongestMatch (a b : List Char) (alo ahi blo bhi : Nat) : Nat × Nat × Nat :=
  let pairs := (List.range' (alo + 1) (ahi - alo)).flatMap fun i =>
    (List.range' (blo + 1) (bhi - blo)).map fun j => (i, j)
  pairs.foldl
    (fun (best : Nat × Nat × Nat) p =>
      let k := lcsBlockLen a b alo blo p.1 p.2
      if best.2.2 < k then (p.1 - k, p.2 - k, k) else best)
    (alo, blo, 0)

/-- Total size of the matching blocks of `get_matching_blocks`, by recursive
decomposition around the longest match (fuel bounds the recursion depth). -/
def matchingBlocksSum (a b : List Char) : Nat → Nat → Nat → Nat → Nat → Nat
  | 0, _, _, _, _ => 0
  | fuel + 1, alo, ahi, blo, bhi =>
    let m := findLongestMatch a b alo ahi blo bhi
    if m.2.2 = 0 then 0
    else
      matchingBlocksSum a b fuel alo m.1 blo m.2.1 + m.2.2 +
        matchingBlocksSum a b fuel (m.1 + m.2.2) ahi (m.2.1 + m.2.2) bhi

/-- `SequenceMatcher(None, a, b).ratio() >= 0.72`, as the exact rational comparison
`25 * M ≥ 9 * (len(a) + len(b))`. -/
def fuzzyAtLeast72 (a b : List Char) : Bool :=
  let t := a.length + b.length
  let m := matchingBlocksSum a b (a.length + b.length + 1) 0 a.length 0 b.length
  if t = 0 then true else 9 * t ≤ 25 * m

/-- `_is_tail_noise_token`. -/
def is_tail_noise_token (token : String) : Bool :=
  let normalized := upperStr ⟨token.data.filter isAsciiLetter⟩
  if normalized.data.isEmpty then true
  else if nameStopKeywords.contains normalized || nameTailNoiseExact.contains normalized then
    true
  else if normalized.length ≤ 6 then
    nameTailFuzzyTargets.any fun target => fuzzyAtLeast72 normalized.data target.data
  else false

/-- The character class `[A-Za-z'.-]` kept inside name tokens. -/
def nameTokenChar (c : Char) : Bool :=
  isAsciiLetter c || c = Char.ofNat 39 || c = '.' || c = '-'

/-- The token-collection loop of `_clean_name_candidate` (`break` on stop keywords,
on an empty cleaned token after the first kept one, and at 8 tokens). -/
def collectNameTokens : List String → List String → List String
  | acc, [] => acc
  | acc, tok :: rest =>
    if tok.data.isEmpty then collectNameTokens acc rest
    else
      let cleaned := tok.data.filter nameTokenChar
      if cleaned.isEmpty then
        if !acc.isEmpty then acc else collectNameTokens acc rest
      else
        let up := upperStr ⟨cleaned⟩
        if nameStopKeywords.contains up then acc
        else
          let acc2 := acc ++ [up]
          if 8 ≤ acc2.length then acc2 else collectNameTokens acc2 rest

/-- Pop trailing OCR-noise tokens (`while tokens and _is_tail_noise_token(tokens[-1])`). -/
def dropTailNoise (tokens : List String) : List String :=
  (tokens.reverse.dropWhile fun t => is_tail_noise_token t).reverse

/-- The characters stripped from a raw candidate (`" \t\r\n:;,.|-"`). -/
def nameStripSet : List Char :=
  [' ', '\t', '\r', '\n', ':', ';', ',', '.', '|', '-']

/-- `" ".join(parts)`. -/
def joinSpace (parts : List String) : String :=
  ⟨List.intercalate " ".data (parts.map String.data)⟩

/-- `_clean_name_candidate`. -/
def clean_name_candidate (candidate : String) : Option String :=
  let compact := squash_whitespace ⟨stripChars nameStripSet candidate.data⟩
  if compact.data.isEmpty then none
  else
    let tokens :=
      collectNameTokens [] ((splitOnChar ' ' compact.data).map fun l => (⟨l⟩ : String))
    if tokens.isEmpty then none
    else
      let tokens2 := dropTailNoise tokens
      if tokens2.isEmpty then none
      else some (pyStrip ⟨(joinSpace tokens2).data⟩)

/-- The alphabetic-character count of `_is_probable_patient_name`
(the argument is already upper-cased, so `[A-Z]` counts its letters). -/
def countUpperAlpha (s : String) : Nat :=
  s.data.countP fun c => 'A' ≤ c && c ≤ 'Z'

/-- The whitespace-delimited tokens of `_is_probable_patient_name`. -/
def nameTokens (normalized : String) : List String :=
  ((splitOnChar ' ' normalized.data).map fun l => (⟨l⟩ : String)).filter fun t =>
    !t.data.isEmpty

/-- `_is_probable_patient_name`. -/
def is_probable_patient_name (name : String) : Bool :=
  let normalized : String := " " ++ upperStr (squash_whitespace name) ++ " "
  if (pyStrip normalized).data.isEmpty then false
  else if normalized.data.any pyIsDigit then false
  else if nameExactBlocklist.contains (pyStrip normalized) then false
  else if nameBlocklistPhrases.any (fun p => containsSubstr normalized p) then false
  else
    let tokens := nameTokens normalized
    if tokens.isEmpty || 6 < tokens.length then false
    else if countUpperAlpha normalized < 2 then false
    else !(tokens.filter fun t => 2 ≤ t.length).isEmpty

/-- The per-candidate pipeline of `extract_nama`: sanitize, then accept only a
plausible patient name. -/
def tryNameCandidate (candidate : String) : Option String :=
  match clean_name_candidate candidate with
  | some normalized =>
    if !normalized.data.isEmpty && is_probable_patient_name normalized then some normalized
    else none
  | none => none

/-- `\bNAMA(?:\s+PASIEN)?\b` at one position, returning the consumed length
(greedy: the `PASIEN` continuation is preferred when it matches with a boundary). -/
def namaLabelAt (prev : Option Char) (l : List Char) : Option Nat :=
  if isWordOpt prev then none
  else
    match matchLitCI "NAMA".data l with
    | none => none
    | some rest =>
      let sp := rest.takeWhile pyIsSpace
      let withOpt :=
        if sp.isEmpty then none
        else
          match matchLitCI "PASIEN".data (rest.drop sp.length) with
          | some r2 => if !isWordHead r2 then some (4 + sp.length + 6) else none
          | none => none
      match withOpt with
      | some n => some n
      | none => if !isWordHead rest then some 4 else none

/-- `re.search(r"(?i)\bNAMA(?:\s+PASIEN)?\b", line)`. -/
def searchNamaLabel (line : String) : Bool :=
  searchAux (fun p l => (namaLabelAt p l).isSome) none line.data

/-- `re.split(r"(?i)\bNAMA(?:\s+PASIEN)?\b", line, maxsplit=1)[-1]`. -/
def splitAfterNamaLabel (line : String) : String :=
  match searchFirstAux (fun prev l => (namaLabelAt prev l).map fun n => l.drop n) none
      line.data with
  | some rest => ⟨rest⟩
  | none => line

/-- The line-based fallback loop of `extract_nama`. -/
def namaFallbackScan (text : String) : Option String :=
  let lines := (pySplitlines text).filterMap fun line =>
    let s := pyStrip line
    if s.data.isEmpty then none else some s
  (List.range lines.length).findSome? fun index =>
    let line := lines.getD index ""
    if !searchNamaLabel line then none
    else if searchWordsCI true [ "NAMA", "RS" ] line then none
    else
      let after_label := splitAfterNamaLabel line
      let candidates :=
        if (pyStrip after_label).data.isEmpty && index + 1 < lines.length then
          [after_label, lines.getD (index + 1) ""]
        else [after_label]
      candidates.findSome? tryNameCandidate

/-- `extract_nama`.  The labeled-field regexes `_NAME_PATTERNS` are three complex
patterns with lookarounds; their `finditer` group-1 candidates are supplied here as
the input list `patternCandidates` (the regex engine is treated as an opaque
collaborator), and every candidate then runs through the exact sanitization gate
`_clean_name_candidate` / `_is_probable_patient_name`, as in the source.  The
line-based fallback is embedded concretely. -/
def extract_nama (patternCandidates : List String) (text : String) : Option String :=
  match patternCandidates.findSome? tryNameCandidate with
  | some n => some n
  | none => namaFallbackScan text

/-! ### Evidence scoring and ranking (`_payload_keyword_map`, `_score_snippet_for_key`,
`_rank_evidence_for_key`) -/

/-- `PAYLOAD_SNIPPET_MAX_CHARS` (environment default 320). -/
def PAYLOAD_SNIPPET_MAX_CHARS : Nat := 320

/-- `_payload_keyword_map()[key]` (`.get(key, ())` for unknown keys). -/
def payloadKeywordMap (key : String) : List String :=
  if key = "kamar_akomodasi" then componentAliases key ++ ["RUANG PERAWATAN"]
  else if key = "laboratorium" then
    componentAliases key ++ ["DARAH", "ELEKTROLIT", "UREUM", "KREATININ"]
  else if key = "radiologi" then componentAliases key ++ ["THORAX"]
  else if key = "obat" then componentAliases key ++ ["RESEP"]
  else if key = "billingan" then
    ["RINCIAN BIAYA", "TOTAL TAGIHAN", "TOTAL BAYAR", "SISA PEMBAYARAN", "TOTAL JAMINAN"]
  else if key = "waktu_mulai" then
    ["WAKTU MULAI", "JAM MASUK", "TGL MASUK", "TANGGAL MASUK", "TGL. TAGIHAN"]
  else if key = "waktu_selesai" then
    ["WAKTU SELESAI", "JAM KELUAR", "TGL KELUAR", "TANGGAL KELUAR"]
  else if key = "total" then ["TOTAL TAGIHAN", "TOTAL TARIF", "TOTAL BIAYA", "TOTAL BAYAR"]
  else if key = "koding" then ["KODING", "ICD", "INA-CBG", "GROUPING"]
  else if key = "waktu_mulai_koding" then ["WAKTU MULAI KODING", "MULAI KODING"]
  else if key = "waktu_selesai_koding" then ["WAKTU SELESAI KODING", "SELESAI KODING"]
  else if key = "total_koding" then ["TOTAL KODING", "TOTAL INA-CBG", "HASIL GROUPING"]
  else if key = "rekap_billingan" then ["REKAP", "PENJAMIN", "TOTAL JAMINAN", "SISA PEMBAYARAN"]
  else if key = "excel" then ["EXCEL", "SPREADSHEET"]
  else if key = "kasir" then
    ["KASIR", "PETUGAS KASIR", "TOTAL BAYAR", "SISA PEMBAYARAN", "TUNAI"]
  else if key = "balance" then ["BALANCE", "SELISIH", "LUNAS", "SISA PEMBAYARAN"]
  else if key = "link_e_klaim" then ["E-KLAIM", "EKLAIM", "KLAIM INDIVIDUAL"]
  else componentAliases key

/-- `_EVIDENCE_MIN_SCORE.get(key, 1)`. -/
def evidenceMinScore (key : String) : Int :=
  if key = "billingan" || key = "waktu_mulai" || key = "waktu_selesai" || key = "koding" ||
      key = "waktu_mulai_koding" || key = "waktu_selesai_koding" || key = "total_koding" ||
      key = "rekap_billingan" || key = "kasir" || key = "balance" || key = "link_e_klaim" then 2
  else if key = "total" then 3
  else 1

/-- Number of `_GENERIC_NOISE_PATTERNS` matching the upper-cased snippet. -/
def genericNoiseHits (upper : String) : Nat :=
  (if searchNoDotWord "REKAM" upper then 1 else 0) +
  (if searchNoDotWord "TAGIHAN" upper then 1 else 0) +
  (if searchNoDotWord "JAMINAN" upper then 1 else 0) +
  (if searchNoDotWord "SEP" upper then 1 else 0) +
  (if searchWordsCI false [ "UMUR", "HARI" ] upper then 1 else 0) +
  (if searchWordsCI false [ "UNIT", "LAYANAN" ] upper then 1 else 0)

/-- `_score_snippet_for_key`. -/
def score_snippet_for_key (key : String) (snippet : String) : Int :=
  let normalized := squash_whitespace snippet
  if normalized.data.isEmpty then 0
  else
    let upper := upperStr normalized
    let keywords := payloadKeywordMap key
    let score0 : Int := keywords.foldl
      (fun sc kw => if containsSubstr upper kw then sc + (if 6 ≤ kw.length then 2 else 1) else sc)
      0
    let score1 :=
      if componentKeys.contains key then
        if searchRpDigit upper then score0 + 1 else score0
      else score0
    let score2 :=
      if key = "total" || key = "billingan" || key = "rekap_billingan" || key = "kasir" ||
          key = "balance" then
        let a : Int := if searchWordsCI false [ "TOTAL", "TAGIHAN" ] upper then 3 else 0
        let b : Int := if searchRpDigit upper then 2 else 0
        let c : Int :=
          if containsSubstr upper "SISA PEMBAYARAN" || containsSubstr upper "TOTAL BAYAR" then 2
          else 0
        let d : Int := if containsSubstr upper "PENJAMIN" then 1 else 0
        score1 + a + b + c + d
      else score1
    let score3 :=
      if key = "waktu_mulai" || key = "waktu_selesai" || key = "waktu_mulai_koding" ||
          key = "waktu_selesai_koding" then
        let a : Int := if searchDatePat normalized then 2 else 0
        let b : Int := if searchTimePat normalized then 1 else 0
        score2 + a + b
      else score2
    let score4 :=
      if key = "koding" || key = "total_koding" then
        if searchKodingPat upper then score3 + 3 else score3
      else score3
    let score5 :=
      if key = "link_e_klaim" then
        let a : Int := if searchHttpUrl normalized then 4 else 0
        let b : Int :=
          if containsSubstr upper "E-KLAIM" || containsSubstr upper "EKLAIM" then 2 else 0
        score4 + a + b
      else score4
    let score6 := score5 - (genericNoiseHits upper : Int)
    if PAYLOAD_SNIPPET_MAX_CHARS < normalized.length then score6 - 1 else score6

/-- Stable insertion of `x` after every leading element `y` with `le y x`. -/
def insort {α : Type} (le : α → α → Bool) (x : α) : List α → List α
  | [] => [x]
  | y :: ys => if le y x then y :: insort le x ys else x :: y :: ys

/-- Stable ascending sort, the unique stable result also produced by Python's
`list.sort`. -/
def stableSortBy {α : Type} (le : α → α → Bool) (l : List α) : List α :=
  l.foldl (fun acc x => insort le x acc) []

/-- The ascending order on `(score, len, snippet)` induced by the Python sort key
`(-score, len)`. -/
def rankKeyLE (a b : Int × Nat × String) : Bool :=
  b.1 < a.1 || (a.1 = b.1 && a.2.1 ≤ b.2.1)

/-- The deduplicated, min family-score filtered `(score, len, snippet)` list of
`_rank_evidence_for_key` (state: seen snippets, collected triples). -/
def rankScoredList (key : String) (snippets : List String) : List (Int × Nat × String) :=
  (snippets.foldl
    (fun (acc : List String × List (Int × Nat × String)) snippet =>
      let normalized := squash_whitespace snippet
      if normalized.data.isEmpty || acc.1.contains normalized then acc
      else
        let seen := acc.1 ++ [normalized]
        let score := score_snippet_for_key key normalized
        if score < evidenceMinScore key then (seen, acc.2)
        else (seen, acc.2 ++ [(score, normalized.length, normalized)]))
    ([], [])).2

/-- `_rank_evidence_for_key`. -/
def rank_evidence_for_key (key : String) (snippets : List String) (max_items : Nat) :
    List String :=
  ((stableSortBy rankKeyLE (rankScoredList key snippets)).take max_items).map fun t => t.2.2

/-! ### Episode segmentation and selection (`_split_billing_segments`,
`_extract_no_tagihan`, `select_primary_billing_text`) -/

/-- `"\n".join(parts)`. -/
def joinNL (parts : List String) : String :=
  ⟨List.intercalate ['\n'] (parts.map String.data)⟩

/-- `_split_billing_segments`. -/
def split_billing_segments (text : String) : List String :=
  let lines := pySplitlines text
  if lines.isEmpty then []
  else
    let marker_indices := (List.range lines.length).filter fun index =>
      searchWordsCI true [ "RINCIAN", "BIAYA", "PELAYANAN", "PASIEN" ] (lines.getD index "")
    if marker_indices.isEmpty then [squash_whitespace text]
    else
      let segments := (List.range marker_indices.length).filterMap fun pos =>
        let start := marker_indices.getD pos 0
        let stop :=
          if pos + 1 < marker_indices.length then marker_indices.getD (pos + 1) 0
          else lines.length
        let segment_text := pyStrip (joinNL ((lines.drop start).take (stop - start)))
        if segment_text.data.isEmpty then none else some segment_text
      if segments.isEmpty then [squash_whitespace text] else segments

/-- `_extract_no_tagihan`. -/
def extract_no_tagihan (text : String) : Option String :=
  match searchFirstAux tryNoTagihanAt none text.data with
  | none => none
  | some g =>
    let digits := onlyDigits g
    if digits.length < 6 then none else some ⟨digits⟩

/-- `re.findall(r"(?i)\bJUMLAH\b", s)` occurrence at one position (payload unit). -/
def jumlahFindAt (prev : Option Char) (l : List Char) : Option (Unit × List Char × Char) :=
  if wordsAt false [ "JUMLAH".data ] prev l then
    some ((), l.drop 6, (l.take 6).getLastD 'H')
  else none

/-- `len(re.findall(r"(?i)\bJUMLAH\b", segment))`. -/
def countJumlah (s : String) : Nat :=
  (scanAll jumlahFindAt s).length

/-- The score tuple of `select_primary_billing_text`
(total amount, component hits, subtotal markers + total-phrase presence). -/
def segmentSortKey (segment : String) : Int × Int × Int :=
  let tot := extract_total_tagihan segment
  let components := extract_billing_components segment tot.2
  let component_hits := component_hit_count components
  let summary_hits := countJumlah segment
  let has_total_phrase : Nat :=
    match tot.1 with
    | some r => if r.data.isEmpty then 0 else 1
    | none => 0
  let total_score : Nat :=
    match tot.2 with
    | some v => v
    | none => 0
  ((total_score : Int), (component_hits : Int), ((summary_hits + has_total_phrase : Nat) : Int))

/-- Python tuple `>` on score triples (strict lexicographic). -/
def keyGT3 (a b : Int × Int × Int) : Bool :=
  b.1 < a.1 || (a.1 = b.1 && (b.2.1 < a.2.1 || (a.2.1 = b.2.1 && b.2.2 < a.2.2)))

/-- The insertion-ordered grouping of segments by billing identifier. -/
def groupSegments (candidates : List String) : List (String × List String) :=
  (List.range candidates.length).foldl
    (fun grouped index =>
      let segment := candidates.getD index ""
      let group_key :=
        match extract_no_tagihan segment with
        | some t => t
        | none => "_segment_" ++ natToStr index
      match grouped.lookup group_key with
      | some parts =>
        grouped.map fun p => if p.1 = group_key then (p.1, parts ++ [segment]) else p
      | none => grouped ++ [(group_key, [segment])])
    []

/-- The grouped candidate texts of `select_primary_billing_text`. -/
def groupedCandidates (text : String) : List String :=
  let candidates := split_billing_segments text
  let grouped := groupSegments candidates
  let gc := (grouped.filter fun p => p.2.any fun part => !(pyStrip part).data.isEmpty).map
    fun p => pyStrip (joinNL p.2)
  if gc.isEmpty then candidates else gc

/-- One iteration of the best-segment loop (strict improvement keeps the first seen). -/
def selectStep (best : String × (Int × Int × Int)) (segment : String) :
    String × (Int × Int × Int) :=
  let k := segmentSortKey segment
  if keyGT3 k best.2 then (segment, k) else best

/-- `select_primary_billing_text`. -/
def select_primary_billing_text (text : String) : String :=
  let candidates := split_billing_segments text
  if candidates.isEmpty then text
  else if candidates.length = 1 then candidates.getD 0 ""
  else
    let gcs := groupedCandidates text
    (gcs.foldl selectStep (gcs.getD 0 "", (-1, -1, -1))).1

/-! ### Text acquisition (`_merge_text_sources`, `is_text_too_short`,
`_needs_ocr_enrichment`, `extract_text_from_pdf`) -/

/-- `_merge_text_sources`: deduplicate squashed lines preserving first-seen order. -/
def merge_text_sources (sources : List String) : String :=
  let acc := sources.foldl
    (fun (acc : List String) source =>
      if source.data.isEmpty then acc
      else
        (pySplitlines source).foldl
          (fun acc2 line =>
            let normalized := squash_whitespace line
            if normalized.data.isEmpty || acc2.contains normalized then acc2
            else acc2 ++ [normalized])
          acc)
    []
  pyStrip (joinNL acc)

/-- `is_text_too_short`. -/
def is_text_too_short (text : String) (min_non_space_chars : Nat) : Bool :=
  (removeWS text.data).length < min_non_space_chars

/-- The critical markers of `_needs_ocr_enrichment`. -/
def criticalMarkers : List String :=
  ["NAMA", "TOTAL TAGIHAN", "RINCIAN BIAYA", "NO TAGIHAN", "NO. TAGIHAN", "NO REKAM MEDIS",
   "NO. REKAM MEDIS"]

/-- `_needs_ocr_enrichment` (the `OCR_ENRICH_ALWAYS` configuration flag is a
parameter; its environment default is `True`). -/
def needs_ocr_enrichment (enrichAlways : Bool) (text : String) : Bool :=
  if enrichAlways then true
  else if is_text_too_short text 40 then true
  else
    let upper := upperStr text
    let marker_hits := (criticalMarkers.filter fun m => containsSubstr upper m).length
    if 2 ≤ marker_hits then false
    else true

/-- `extract_text_from_pdf`, with the three opaque text sources as parameters:
`primary` is the pdfplumber extractor outcome (text, or a raised
`PDFTextExtractionError` carried as `.error`), `secondary_text` the PyMuPDF text
(`""` on failure), `ocr_text` the OCR text (`""` on failure). -/
def extract_text_from_pdf (enrichAlways : Bool) (primary : Except String String)
    (secondary_text ocr_text : String) : Except String String :=
  let primary_text :=
    match primary with
    | .ok t => t
    | .error _ => ""
  let merged_text := merge_text_sources [primary_text, secondary_text]
  if !needs_ocr_enrichment enrichAlways merged_text then .ok merged_text
  else if ocr_text.data.isEmpty then
    match primary with
    | .error e => if merged_text.data.isEmpty then .error e else .ok merged_text
    | .ok _ => .ok merged_text
  else .ok (merge_text_sources [merged_text, ocr_text])

/-! ### Response model (`app/models.py` `ParseBillingResponse`,
`app/main.py` `_build_response`) -/

/-- `ParseBillingResponse` of `app/models.py`: exactly the declared fields
`success`, `message`, `ai_bundle`, `chat_id`, `file_name`. -/
structure ParseBillingResponse where
  success : Bool
  message : String
  ai_bundle : List (String × String)
  chat_id : Option String
  file_name : Option String
deriving Repr, DecidableEq

/-- `_build_response` of `app/main.py`.  It forwards `nama`, `total_tagihan_raw`,
`total_tagihan_int` and `komponen_billing` as constructor keyword arguments, but
`ParseBillingResponse` declares no such fields, so pydantic v2 (default
`extra="ignore"`, enforced additionally by FastAPI's `response_model` filtering)
silently drops them; `ai_bundle` is never passed and keeps its empty default. -/
def build_response (success : Bool) (message : String) (chat_id file_name : Option String)
    (_nama : Option String) (_total_tagihan_raw : Option String)
    (_total_tagihan_int : Option Nat) (_komponen_billing : Option (String → CompEntry)) :
    ParseBillingResponse :=
  { success := success, message := message, ai_bundle := [], chat_id := chat_id,
    file_name := file_name }

/-- A two-episode document: two `"Rincian Biaya Pelayanan Pasien"` headers, one
segment with total 500.000 and one with total 3.000.000 and a matched component. -/
def docTwoEpisodes : String :=
  "Rincian Biaya Pelayanan Pasien\nTotal Tagihan Rp 500.000\nRincian Biaya Pelayanan Pasien\nTotal Tagihan Rp 3.000.000\nKONSULTASI Rp 100.000"

/-! ## Theorems -/

/-- C4: the amount parser maps each of the tokens `"1.234.567"`, `"1,234,567"`,
`"1234567,50"` and `"1234567"` to the integer 1234567. -/
theorem claim_C4_amount_parser_round_trip :
    parse_rupiah_amount "1.234.567" = some 1234567 ∧
    parse_rupiah_amount "1,234,567" = some 1234567 ∧
    parse_rupiah_amount "1234567,50" = some 1234567 ∧
    parse_rupiah_amount "1234567" = some 1234567 := by
  refine ⟨?_, ?_, ?_, ?_⟩ <;> rfl

/-- C3: the structured result returned to the caller does NOT expose the extracted
name, raw total phrase, integer total or component map: `ParseBillingResponse`
declares none of those fields, so the values `_build_response` forwards are silently
dropped by the pydantic constructor and the response is entirely independent of them
(the code slip contradicting the declared output contract). -/
theorem claim_C3_response_drops_parsed_fields (success : Bool) (message : String)
    (chat_id file_name : Option String) (n1 n2 r1 r2 : Option String) (i1 i2 : Option Nat)
    (k1 k2 : Option (String → CompEntry)) :
    build_response success message chat_id file_name n1 r1 i1 k1 =
      build_response success message chat_id file_name n2 r2 i2 k2 := rfl

/-- C2 counterexample: the token `"12345"` in context `"TOTAL TAGIHAN 12345"` has its
value in range, a context free of bill-number labels and bracketed ward tags, no
currency hint, no separator, and only 5 raw digits — the claim says such a candidate
is accepted, but the validator rejects it. -/
theorem claim_C2_counterexample :
    is_valid_total_candidate "12345" 12345 "TOTAL TAGIHAN 12345" = false ∧
    (0 < 12345 ∧ 12345 ≤ 999999999) ∧
    containsSubstr (upperStr (squash_whitespace "TOTAL TAGIHAN 12345")) "NO TAGIHAN" = false ∧
    containsSubstr (upperStr (squash_whitespace "TOTAL TAGIHAN 12345")) "NO. TAGIHAN" = false ∧
    containsSubstr (upperStr (squash_whitespace "TOTAL TAGIHAN 12345")) "RAWAT JALAN [" = false ∧
    containsSubstr (upperStr (squash_whitespace "TOTAL TAGIHAN 12345")) "RAWAT INAP [" = false ∧
    hasRupiahHint "TOTAL TAGIHAN 12345" = false ∧
    hasSeparatorTok "12345" = false ∧
    (digitsOnlyTok "12345").length < 9 := by
  refine ⟨rfl, ⟨by decide, by decide⟩, rfl, rfl, rfl, rfl, rfl, rfl, by decide⟩

/-- C2 (amended): for a candidate with value in `(0, 999_999_999]` whose context
contains neither a bill-number label nor a bracketed ward-type tag, the candidate is
accepted if and only if it has a currency-symbol hint or a thousands separator; a
candidate lacking both is always rejected, regardless of its raw digit count (the
9-digit rule of the source is unreachable dead code). -/
theorem claim_C2_total_candidate_acceptance (amount_token : String) (parsed_amount : Nat)
    (context : String) (h1 : 0 < parsed_amount) (h2 : parsed_amount ≤ 999999999)
    (h3 : containsSubstr (upperStr (squash_whitespace context)) "NO TAGIHAN" = false)
    (h4 : containsSubstr (upperStr (squash_whitespace context)) "NO. TAGIHAN" = false)
    (h5 : containsSubstr (upperStr (squash_whitespace context)) "RAWAT JALAN [" = false)
    (h6 : containsSubstr (upperStr (squash_whitespace context)) "RAWAT INAP [" = false) :
    is_valid_total_candidate amount_token parsed_amount context =
      (hasRupiahHint context || hasSeparatorTok amount_token) := by
  unfold is_valid_total_candidate
  have hz : ¬(parsed_amount = 0 || 999999999 < parsed_amount) = true := by
    simp only [Bool.or_eq_true, decide_eq_true_eq]
    omega
  simp only [hz, if_false, h3, h4, h5, h6, Bool.or_self, Bool.false_or, if_neg,
    Bool.false_eq_true, not_false_eq_true]
  cases hh : hasRupiahHint context <;> cases hs : hasSeparatorTok amount_token <;> simp

/-- C2 witness: the amended acceptance equivalence evaluated at the token
`"1.500.000"` in context `"TOTAL TAGIHAN RP 1.500.000"`. -/
theorem claim_C2_total_candidate_acceptance_witness :
    is_valid_total_candidate "1.500.000" 1500000 "TOTAL TAGIHAN RP 1.500.000" =
      (hasRupiahHint "TOTAL TAGIHAN RP 1.500.000" || hasSeparatorTok "1.500.000") :=
  claim_C2_total_candidate_acceptance "1.500.000" 1500000 "TOTAL TAGIHAN RP 1.500.000"
    (by decide) (by decide) (by rfl) (by rfl) (by rfl) (by rfl)

/-- C6 counterexample: the primary extractor succeeds with empty text and neither the
secondary extractor nor OCR produce anything — no source produced any text — yet the
acquisition returns `.ok ""` instead of raising the text-extraction error, refuting
the claimed "if" direction of the equivalence. -/
theorem claim_C6_counterexample :
    extract_text_from_pdf true (Except.ok "") "" "" = Except.ok "" ∧
    merge_text_sources ["", ""] = "" := ⟨rfl, rfl⟩

/-- C6 (amended): text acquisition propagates the text-extraction error if and only
if the primary extractor failed AND the merged primary/secondary text is empty AND
OCR produced nothing; whenever any source contributes non-empty merged text (or the
primary extractor did not itself fail), the failure is not propagated. -/
theorem claim_C6_error_propagation (enrichAlways : Bool) (primary : Except String String)
    (secondary_text ocr_text : String) :
    (∃ e, extract_text_from_pdf enrichAlways primary secondary_text ocr_text =
        Except.error e) ↔
      ((∃ e, primary = Except.error e) ∧
        merge_text_sources
          [(match primary with | .ok t => t | .error _ => ""), secondary_text] = "" ∧
        ocr_text = "") := by
  have hneeds : ∀ flag : Bool, needs_ocr_enrichment flag "" = true := by
    intro flag
    cases flag <;> rfl
  cases primary with
  | ok t =>
    constructor
    · rintro ⟨e, he⟩
      simp only [extract_text_from_pdf] at he
      by_cases hn :
          needs_ocr_enrichment enrichAlways (merge_text_sources [t, secondary_text]) = true
      · rw [hn] at he
        simp only [Bool.not_true, Bool.false_eq_true, if_false] at he
        by_cases ho : ocr_text.data.isEmpty = true
        · rw [if_pos ho] at he
          exact absurd he (by simp)
        · rw [if_neg ho] at he
          exact absurd he (by simp)
      · rw [Bool.not_eq_true] at hn
        rw [hn] at he
        exact absurd he (by simp)
    · rintro ⟨⟨e, hp⟩, _, _⟩
      exact absurd hp (by simp)
  | error e0 =>
    constructor
    · rintro ⟨e, he⟩
      simp only [extract_text_from_pdf] at he
      by_cases hn :
          needs_ocr_enrichment enrichAlways (merge_text_sources ["", secondary_text]) = true
      · rw [hn] at he
        simp only [Bool.not_true, Bool.false_eq_true, if_false] at he
        by_cases ho : ocr_text.data.isEmpty = true
        · rw [if_pos ho] at he
          by_cases hm : (merge_text_sources ["", secondary_text]).data.isEmpty = true
          · refine ⟨⟨e0, rfl⟩, ?_, ?_⟩
            · exact String.ext (List.isEmpty_iff.mp hm)
            · exact String.ext (List.isEmpty_iff.mp ho)
          · rw [if_neg hm] at he
            exact absurd he (by simp)
        · rw [if_neg ho] at he
          exact absurd he (by simp)
      · rw [Bool.not_eq_true] at hn
        rw [hn] at he
        exact absurd he (by simp)
    · rintro ⟨⟨e, hp⟩, hm, ho⟩
      subst ho
      refine ⟨e0, ?_⟩
      simp only [extract_text_from_pdf] at hm ⊢
      rw [hm, hneeds enrichAlways]
      simp

/-! Shared helper lemmas for fold-based invariants. -/

/-- A property preserved by every step is preserved by `foldl`. -/
theorem foldl_preserve {α β : Type} (P : α → Prop) (f : α → β → α)
    (h : ∀ a b, P a → P (f a b)) : ∀ (l : List β) (a : α), P a → P (l.foldl f a) := by
  intro l
  induction l with
  | nil => intro a ha; exact ha
  | cons x xs ih => intro a ha; exact ih (f a x) (h a x ha)

/-! C10: shape of the total extractor result. -/

/-- A candidate accepted by `_is_valid_total_candidate` has its value in
`(0, 999_999_999]`. -/
theorem valid_total_bounds (tok : String) (v : Nat) (ctx : String)
    (h : is_valid_total_candidate tok v ctx = true) : 0 < v ∧ v ≤ 999999999 := by
  unfold is_valid_total_candidate at h
  by_cases hb : (v = 0 || decide (999999999 < v)) = true
  · rw [if_pos hb] at h
    exact absurd h (by simp)
  · simp only [Bool.or_eq_true, decide_eq_true_eq, not_or] at hb
    omega

/-- The both-or-neither invariant of the total-extractor selection state. -/
def TotalSelInv (sel : Option String × Option Nat) : Prop :=
  sel = (none, none) ∨ ∃ r v, sel = (some r, some v) ∧ 0 < v ∧ v ≤ 999999999

/-- The labeled-pattern loop preserves the selection invariant. -/
theorem totalLabeledStep_inv (sel : Option String × Option Nat) (m : String × String)
    (h : TotalSelInv sel) : TotalSelInv (totalLabeledStep sel m) := by
  simp only [totalLabeledStep]
  split
  · exact h
  · split
    · rename_i parsed _ hv
      exact Or.inr ⟨_, parsed, rfl, valid_total_bounds _ _ _ hv⟩
    · exact h

/-- The fallback token loop preserves the selection invariant. -/
theorem totalFallbackTokStep_inv (raw_phrase : String) (sel : Option String × Option Nat)
    (tok : String) (h : TotalSelInv sel) :
    TotalSelInv (totalFallbackTokStep raw_phrase sel tok) := by
  simp only [totalFallbackTokStep]
  split
  · exact h
  · split
    · rename_i parsed _ hv
      exact Or.inr ⟨_, parsed, rfl, valid_total_bounds _ _ _ hv⟩
    · exact h

/-- The fallback line loop preserves the selection invariant. -/
theorem totalFallbackLineStep_inv (lines : List String) (sel : Option String × Option Nat)
    (index : Nat) (h : TotalSelInv sel) :
    TotalSelInv (totalFallbackLineStep lines sel index) := by
  simp only [totalFallbackLineStep]
  split
  · exact h
  · exact foldl_preserve TotalSelInv _ (fun a b ha => totalFallbackTokStep_inv _ a b ha) _ _ h

/-- C10: for every input text the total extractor returns either `(None, None)` or a
pair with both the raw phrase and the value present, the value lying in
`(0, 999_999_999]`. -/
theorem claim_C10_total_extractor_shape (text : String) :
    extract_total_tagihan text = (none, none) ∨
      ∃ r v, extract_total_tagihan text = (some r, some v) ∧ 0 < v ∧ v ≤ 999999999 := by
  have hfirst : TotalSelInv ((findTotalMatches text).foldl totalLabeledStep (none, none)) :=
    foldl_preserve TotalSelInv _ (fun a b ha => totalLabeledStep_inv a b ha) _ _ (Or.inl rfl)
  have h2 : TotalSelInv (extract_total_tagihan text) := by
    unfold extract_total_tagihan
    by_cases hs :
        ((findTotalMatches text).foldl totalLabeledStep (none, none)).2.isSome = true
    · simp only [hs, if_true]
      exact hfirst
    · simp only [hs, Bool.false_eq_true, if_false]
      exact foldl_preserve TotalSelInv _
        (fun a b ha => totalFallbackLineStep_inv _ a b ha) _ _ hfirst
  exact h2

/-! C8: the ranked evidence list is ordered by descending score. -/

/-- Membership in a stable insertion. -/
theorem mem_insort {α : Type} (le : α → α → Bool) (x a : α) :
    ∀ l : List α, a ∈ insort le x l ↔ a = x ∨ a ∈ l := by
  intro l
  induction l with
  | nil => simp [insort]
  | cons y ys ih =>
    by_cases h : le y x = true
    · rw [insort, if_pos h]
      simp only [List.mem_cons, ih]
      tauto
    · rw [insort, if_neg h]
      simp only [List.mem_cons]

/-- Stable insertion preserves sortedness for a total transitive order. -/
theorem pairwise_insort {α : Type} (le : α → α → Bool)
    (htot : ∀ a b, le a b = true ∨ le b a = true)
    (htrans : ∀ a b c, le a b = true → le b c = true → le a c = true)
    (x : α) : ∀ l : List α, l.Pairwise (fun a b => le a b = true) →
      (insort le x l).Pairwise (fun a b => le a b = true) := by
  intro l
  induction l with
  | nil =>
    intro _
    simp [insort]
  | cons y ys ih =>
    intro hp
    rcases List.pairwise_cons.mp hp with ⟨hy, hys⟩
    by_cases h : le y x = true
    · rw [insort, if_pos h]
      refine List.pairwise_cons.mpr ⟨?_, ih hys⟩
      intro b hb
      rcases (mem_insort le x b ys).mp hb with rfl | hbm
      · exact h
      · exact hy b hbm
    · rw [insort, if_neg h]
      have hxy : le x y = true := by
        rcases htot x y with hh | hh
        · exact hh
        · exact absurd hh h
      refine List.pairwise_cons.mpr ⟨?_, hp⟩
      intro b hb
      rcases List.mem_cons.mp hb with rfl | hbm
      · exact hxy
      · exact htrans x y b hxy (hy b hbm)

/-- The stable sort is sorted for a total transitive order. -/
theorem pairwise_stableSortBy {α : Type} (le : α → α → Bool)
    (htot : ∀ a b, le a b = true ∨ le b a = true)
    (htrans : ∀ a b c, le a b = true → le b c = true → le a c = true) (l : List α) :
    (stableSortBy le l).Pairwise (fun a b => le a b = true) := by
  unfold stableSortBy
  exact foldl_preserve (fun acc => acc.Pairwise fun a b => le a b = true)
    (fun acc x => insort le x acc)
    (fun acc x hacc => pairwise_insort le htot htrans x acc hacc) l [] List.Pairwise.nil

/-- A pointwise property of the inputs survives the stable sort. -/
theorem stableSortBy_forall {α : Type} (le : α → α → Bool) (Q : α → Prop) :
    ∀ (l acc : List α), (∀ x ∈ acc, Q x) → (∀ x ∈ l, Q x) →
      ∀ x ∈ l.foldl (fun acc x => insort le x acc) acc, Q x := by
  intro l
  induction l with
  | nil =>
    intro acc hacc _ x hx
    exact hacc x hx
  | cons y ys ih =>
    intro acc hacc hl x hx
    refine ih (insort le y acc) ?_ (fun z hz => hl z (List.mem_cons_of_mem _ hz)) x hx
    intro z hz
    rcases (mem_insort le y z acc).mp hz with rfl | hzm
    · exact hl z (List.mem_cons_self _ _)
    · exact hacc z hzm

/-- Every triple collected by `_rank_evidence_for_key` carries the score of its own
snippet. -/
theorem rankScoredList_score (key : String) (snippets : List String) :
    ∀ t ∈ rankScoredList key snippets, t.1 = score_snippet_for_key key t.2.2 := by
  unfold rankScoredList
  have h := foldl_preserve
    (fun acc : List String × List (Int × Nat × String) =>
      ∀ t ∈ acc.2, t.1 = score_snippet_for_key key t.2.2)
    (fun acc snippet =>
      let normalized := squash_whitespace snippet
      if normalized.data.isEmpty || acc.1.contains normalized then acc
      else
        let seen := acc.1 ++ [normalized]
        let score := score_snippet_for_key key normalized
        if score < evidenceMinScore key then (seen, acc.2)
        else (seen, acc.2 ++ [(score, normalized.length, normalized)]))
    ?_ snippets ([], []) ?_
  · exact h
  · intro a b ha
    by_cases h1 : ((squash_whitespace b).data.isEmpty || a.1.contains (squash_whitespace b)) = true
    · simpa only [h1, if_true] using ha
    · simp only [h1, Bool.false_eq_true, if_false]
      by_cases h2 : score_snippet_for_key key (squash_whitespace b) < evidenceMinScore key
      · simpa only [if_pos h2] using ha
      · simp only [if_neg h2]
        intro t ht
        rcases List.mem_append.mp ht with hm | hm
        · exact ha t hm
        · rcases List.mem_singleton.mp hm with rfl
          rfl
  · intro t ht
    exact absurd ht (List.not_mem_nil t)

/-- The rank order is total. -/
theorem rankKeyLE_total (a b : Int × Nat × String) :
    rankKeyLE a b = true ∨ rankKeyLE b a = true := by
  unfold rankKeyLE
  simp only [Bool.or_eq_true, Bool.and_eq_true, decide_eq_true_eq]
  omega

/-- The rank order is transitive. -/
theorem rankKeyLE_trans (a b c : Int × Nat × String) (h1 : rankKeyLE a b = true)
    (h2 : rankKeyLE b c = true) : rankKeyLE a c = true := by
  unfold rankKeyLE at h1 h2 ⊢
  simp only [Bool.or_eq_true, Bool.and_eq_true, decide_eq_true_eq] at h1 h2 ⊢
  omega

/-- In the rank order the score of the right element never exceeds the left one. -/
theorem rankKeyLE_score_le (a b : Int × Nat × String) (h : rankKeyLE a b = true) :
    b.1 ≤ a.1 := by
  unfold rankKeyLE at h
  simp only [Bool.or_eq_true, Bool.and_eq_true, decide_eq_true_eq] at h
  omega

/-- C8: for every field key and every snippet list, in the ranked evidence list a
snippet scoring strictly higher than another never appears after it: the returned
list is ordered by non-increasing `_score_snippet_for_key`. -/
theorem claim_C8_evidence_rank_monotone (key : String) (snippets : List String)
    (max_items : Nat) (i j : Nat) (hij : i < j)
    (hj : j < (rank_evidence_for_key key snippets max_items).length) :
    score_snippet_for_key key
        ((rank_evidence_for_key key snippets max_items).get ⟨j, hj⟩) ≤
      score_snippet_for_key key
        ((rank_evidence_for_key key snippets max_items).get ⟨i, Nat.lt_trans hij hj⟩) := by
  have hpw : (stableSortBy rankKeyLE (rankScoredList key snippets)).Pairwise
      (fun a b => rankKeyLE a b = true) :=
    pairwise_stableSortBy rankKeyLE rankKeyLE_total rankKeyLE_trans _
  have hpw2 : ((stableSortBy rankKeyLE (rankScoredList key snippets)).take
      max_items).Pairwise (fun a b => rankKeyLE a b = true) :=
    hpw.sublist (List.take_sublist _ _)
  have hQ : ∀ t ∈ (stableSortBy rankKeyLE (rankScoredList key snippets)).take max_items,
      t.1 = score_snippet_for_key key t.2.2 := by
    intro t ht
    have ht2 := List.mem_of_mem_take ht
    exact stableSortBy_forall rankKeyLE _ (rankScoredList key snippets) []
      (fun x hx => absurd hx (List.not_mem_nil x)) (rankScoredList_score key snippets) t ht2
  have hlen : (rank_evidence_for_key key snippets max_items).length =
      ((stableSortBy rankKeyLE (rankScoredList key snippets)).take max_items).length := by
    unfold rank_evidence_for_key
    exact List.length_map _ _
  have hj2 : j < ((stableSortBy rankKeyLE (rankScoredList key snippets)).take
      max_items).length := hlen ▸ hj
  have hi2 : i < ((stableSortBy rankKeyLE (rankScoredList key snippets)).take
      max_items).length := Nat.lt_trans hij hj2
  have hle := (List.pairwise_iff_getElem.mp hpw2) i j hi2 hj2 hij
  have hgi : (rank_evidence_for_key key snippets max_items).get ⟨i, Nat.lt_trans hij hj⟩ =
      (((stableSortBy rankKeyLE (rankScoredList key snippets)).take max_items).get
        ⟨i, hi2⟩).2.2 := by
    unfold rank_evidence_for_key
    simp [List.get_eq_getElem, List.getElem_map]
  have hgj : (rank_evidence_for_key key snippets max_items).get ⟨j, hj⟩ =
      (((stableSortBy rankKeyLE (rankScoredList key snippets)).take max_items).get
        ⟨j, hj2⟩).2.2 := by
    unfold rank_evidence_for_key
    simp [List.get_eq_getElem, List.getElem_map]
  rw [hgi, hgj]
  have hQi := hQ _ (List.get_mem _ i hi2)
  have hQj := hQ _ (List.get_mem _ j hj2)
  rw [← hQi, ← hQj]
  have hle2 := rankKeyLE_score_le _ _ hle
  simpa [List.get_eq_getElem] using hle2

/-- C8 witness: the ordering instantiated on a concrete ranked list with two
survivors. -/
theorem claim_C8_evidence_rank_monotone_witness :
    score_snippet_for_key "total"
        ((rank_evidence_for_key "total"
          ["TOTAL TAGIHAN Rp 5.000", "x", "Total Tagihan Rp 7.000 lebih panjang"] 8).get
          ⟨1, by decide⟩) ≤
      score_snippet_for_key "total"
        ((rank_evidence_for_key "total"
          ["TOTAL TAGIHAN Rp 5.000", "x", "Total Tagihan Rp 7.000 lebih panjang"] 8).get
          ⟨0, by decide⟩) :=
  claim_C8_evidence_rank_monotone "total"
    ["TOTAL TAGIHAN Rp 5.000", "x", "Total Tagihan Rp 7.000 lebih panjang"] 8 0 1
    (by decide) (by decide)

/-! C7: every returned name passed the plausibility gate. -/

/-- A successful `findSome?` exhibits a successful element. -/
theorem findSome?_eq_some {α β : Type} {f : α → Option β} {b : β} :
    ∀ {l : List α}, l.findSome? f = some b → ∃ a ∈ l, f a = some b := by
  intro l
  induction l with
  | nil =>
    intro h
    exact absurd h (by simp)
  | cons x xs ih =>
    intro h
    cases hf : f x with
    | some y =>
      simp only [List.findSome?_cons, hf] at h
      exact ⟨x, List.mem_cons_self x xs, hf.trans h⟩
    | none =>
      simp only [List.findSome?_cons, hf] at h
      rcases ih h with ⟨a, ha, hfa⟩
      exact ⟨a, List.mem_cons_of_mem _ ha, hfa⟩

/-- A candidate surviving the per-candidate pipeline is a plausible patient name. -/
theorem tryNameCandidate_probable {c n : String} (h : tryNameCandidate c = some n) :
    is_probable_patient_name n = true := by
  unfold tryNameCandidate at h
  split at h
  · split at h
    · rename_i hp
      cases h
      exact ((Bool.and_eq_true _ _).mp hp).2
    · exact absurd h (by simp)
  · exact absurd h (by simp)

/-- A name found by the fallback line scan is plausible. -/
theorem namaFallbackScan_probable {text n : String} (h : namaFallbackScan text = some n) :
    is_probable_patient_name n = true := by
  unfold namaFallbackScan at h
  rcases findSome?_eq_some h with ⟨index, _, hidx⟩
  simp only [] at hidx
  split at hidx
  · exact absurd hidx (by simp)
  · split at hidx
    · exact absurd hidx (by simp)
    · rcases findSome?_eq_some hidx with ⟨c, _, hc⟩
      exact tryNameCandidate_probable hc

/-- Every name returned by `extract_nama` is plausible. -/
theorem extract_nama_probable {pc : List String} {text n : String}
    (h : extract_nama pc text = some n) : is_probable_patient_name n = true := by
  unfold extract_nama at h
  cases hf : pc.findSome? tryNameCandidate with
  | some m =>
    rw [hf] at h
    cases h
    rcases findSome?_eq_some hf with ⟨c, _, hc⟩
    exact tryNameCandidate_probable hc
  | none =>
    rw [hf] at h
    exact namaFallbackScan_probable h

/-- Unpacking of the plausibility gate: the padded normalized form has no digit, is
not exact-blocklisted, contains no blocklisted hospital phrase, has 1–6 tokens and at
least 2 alphabetic characters. -/
theorem is_probable_patient_name_props (name : String)
    (h : is_probable_patient_name name = true) :
    (" " ++ upperStr (squash_whitespace name) ++ " " : String).data.any pyIsDigit = false ∧
    nameExactBlocklist.contains
      (pyStrip (" " ++ upperStr (squash_whitespace name) ++ " ")) = false ∧
    nameBlocklistPhrases.any
      (fun p => containsSubstr (" " ++ upperStr (squash_whitespace name) ++ " ") p) = false ∧
    1 ≤ (nameTokens (" " ++ upperStr (squash_whitespace name) ++ " ")).length ∧
    (nameTokens (" " ++ upperStr (squash_whitespace name) ++ " ")).length ≤ 6 ∧
    2 ≤ countUpperAlpha (" " ++ upperStr (squash_whitespace name) ++ " ") := by
  simp only [is_probable_patient_name] at h
  split at h
  · exact absurd h (by simp)
  · split at h
    · exact absurd h (by simp)
    · split at h
      · exact absurd h (by simp)
      · split at h
        · exact absurd h (by simp)
        · split at h
          · exact absurd h (by simp)
          · split at h
            · exact absurd h (by simp)
            · rename_i h2 h3 h4 h5 h6
              have h2b := eq_false_of_ne_true h2
              have h3b := eq_false_of_ne_true h3
              have h4b := eq_false_of_ne_true h4
              have h5b := eq_false_of_ne_true h5
              simp only [Bool.or_eq_false_iff, decide_eq_false_iff_not, not_lt] at h5b
              refine ⟨h2b, h3b, h4b, ?_, by omega, by omega⟩
              rcases htl : nameTokens (" " ++ upperStr (squash_whitespace name) ++ " ")
                with _ | ⟨t, ts⟩
              · rw [htl] at h5b
                simp at h5b
              · simp

/-- `toUpper` fixes ASCII digits. -/
theorem toUpper_of_digit (c : Char) (h : pyIsDigit c = true) : c.toUpper = c := by
  have hb : 48 ≤ c.toNat ∧ c.toNat ≤ 57 := by
    unfold pyIsDigit at h
    simpa using h
  simp only [Char.toUpper]
  rw [if_neg (by omega)]

/-- A digit is not whitespace. -/
theorem digit_not_space (c : Char) (h : pyIsDigit c = true) : pyIsSpace c = false := by
  have hb : 48 ≤ c.toNat ∧ c.toNat ≤ 57 := by
    unfold pyIsDigit at h
    simpa using h
  by_contra hs
  rw [Bool.not_eq_false] at hs
  unfold pyIsSpace at hs
  simp only [Bool.or_eq_true, decide_eq_true_eq] at hs
  rcases hs with ((((h1 | h1) | h1) | h1) | h1) | h1 <;> subst h1 <;>
    exact absurd hb (by decide)

/-- A non-space character is not the single stripped space. -/
theorem space_list_not_contains {c : Char} (hc : pyIsSpace c = false) :
    ([' '] : List Char).contains c = false := by
  by_contra h
  rw [Bool.not_eq_false] at h
  have hceq : c = ' ' := by simpa using h
  subst hceq
  exact absurd hc (by decide)

/-- Whitespace collapsing keeps non-space characters. -/
theorem mem_collapseWS (c : Char) (hc : pyIsSpace c = false) :
    ∀ l : List Char, c ∈ l → c ∈ collapseWS l := by
  intro l
  induction l with
  | nil =>
    intro h
    exact absurd h (List.not_mem_nil c)
  | cons a tail ih =>
    intro h
    cases tail with
    | nil =>
      rcases List.mem_singleton.mp h with rfl
      rw [collapseWS, if_neg (by rw [hc]; simp)]
      exact List.mem_singleton.mpr rfl
    | cons b rest =>
      rw [collapseWS]
      by_cases hab : (pyIsSpace a && pyIsSpace b) = true
      · rw [if_pos hab]
        rcases List.mem_cons.mp h with rfl | h2
        · exact absurd ((Bool.and_eq_true _ _).mp hab).1 (by rw [hc]; simp)
        · exact ih h2
      · rw [if_neg hab]
        rcases List.mem_cons.mp h with rfl | h2
        · rw [if_neg (by rw [hc]; simp)]
          exact List.mem_cons_self _ _
        · exact List.mem_cons_of_mem _ (ih h2)

/-- Dropping stripped spaces keeps non-space characters. -/
theorem mem_dropWhileMem {c : Char} (hc : ([' '] : List Char).contains c = false) :
    ∀ l : List Char, c ∈ l → c ∈ dropWhileMem [' '] l := by
  intro l
  induction l with
  | nil =>
    intro h
    exact absurd h (List.not_mem_nil c)
  | cons a tail ih =>
    intro h
    unfold dropWhileMem
    rw [List.dropWhile_cons]
    by_cases ha : (([' '] : List Char).contains a) = true
    · rw [if_pos ha]
      rcases List.mem_cons.mp h with rfl | h2
      · exact absurd ha (by rw [hc]; simp)
      · exact ih h2
    · rw [if_neg ha]
      exact h

/-- Squashing keeps non-space characters. -/
theorem mem_squash {c : Char} (hc : pyIsSpace c = false) (s : String)
    (h : c ∈ s.data) : c ∈ (squash_whitespace s).data := by
  have hcon := space_list_not_contains hc
  have h1 : c ∈ collapseWS s.data := mem_collapseWS c hc s.data h
  show c ∈ (stripChars [' '] (collapseWS s.data))
  unfold stripChars
  rw [List.mem_reverse]
  apply mem_dropWhileMem hcon
  rw [List.mem_reverse]
  exact mem_dropWhileMem hcon _ h1

/-- If the normalized padded form is digit-free, so is the raw name. -/
theorem any_digit_transport {n : String}
    (h : (" " ++ upperStr (squash_whitespace n) ++ " " : String).data.any pyIsDigit = false) :
    n.data.any pyIsDigit = false := by
  by_contra hb
  rw [Bool.not_eq_false] at hb
  rcases List.any_eq_true.mp hb with ⟨c, hcmem, hcdig⟩
  have hns : pyIsSpace c = false := digit_not_space c hcdig
  have h1 : c ∈ (squash_whitespace n).data := mem_squash hns n hcmem
  have h2 : c.toUpper ∈ (upperStr (squash_whitespace n)).data := List.mem_map_of_mem _ h1
  rw [toUpper_of_digit c hcdig] at h2
  have h3 : c ∈ (" " ++ upperStr (squash_whitespace n) ++ " " : String).data := by
    rw [String.data_append, String.data_append]
    exact List.mem_append.mpr (Or.inl (List.mem_append.mpr (Or.inr h2)))
  have h4 : (" " ++ upperStr (squash_whitespace n) ++ " " : String).data.any pyIsDigit =
      true := List.any_eq_true.mpr ⟨c, h3, hcdig⟩
  rw [h] at h4
  exact absurd h4 (by simp)

/-- C7: the name extractor never returns a string containing a digit, equal to a
blocklisted generic phrase, or containing a hospital-name substring; any returned
name has 1–6 tokens and at least 2 alphabetic characters (for any list of
labeled-pattern regex candidates and any input text). -/
theorem claim_C7_name_plausibility (patternCandidates : List String) (text : String)
    (n : String) (h : extract_nama patternCandidates text = some n) :
    n.data.any pyIsDigit = false ∧
    nameExactBlocklist.contains
      (pyStrip (" " ++ upperStr (squash_whitespace n) ++ " ")) = false ∧
    nameBlocklistPhrases.any
      (fun p => containsSubstr (" " ++ upperStr (squash_whitespace n) ++ " ") p) = false ∧
    1 ≤ (nameTokens (" " ++ upperStr (squash_whitespace n) ++ " ")).length ∧
    (nameTokens (" " ++ upperStr (squash_whitespace n) ++ " ")).length ≤ 6 ∧
    2 ≤ countUpperAlpha (" " ++ upperStr (squash_whitespace n) ++ " ") := by
  have hp := extract_nama_probable h
  have hprops := is_probable_patient_name_props n hp
  exact ⟨any_digit_transport hprops.1, hprops.2.1, hprops.2.2.1, hprops.2.2.2.1,
    hprops.2.2.2.2.1, hprops.2.2.2.2.2⟩

/-- C7 witness: the plausibility guarantees instantiated on the candidate
`"BUDI SANTOSO"`. -/
theorem claim_C7_name_plausibility_witness :
    extract_nama ["BUDI SANTOSO"] "" = some "BUDI SANTOSO" ∧
    ("BUDI SANTOSO" : String).data.any pyIsDigit = false ∧
    nameExactBlocklist.contains
      (pyStrip (" " ++ upperStr (squash_whitespace "BUDI SANTOSO") ++ " ")) = false ∧
    nameBlocklistPhrases.any
      (fun p =>
        containsSubstr (" " ++ upperStr (squash_whitespace "BUDI SANTOSO") ++ " ") p) =
      false ∧
    1 ≤ (nameTokens (" " ++ upperStr (squash_whitespace "BUDI SANTOSO") ++ " ")).length ∧
    (nameTokens (" " ++ upperStr (squash_whitespace "BUDI SANTOSO") ++ " ")).length ≤ 6 ∧
    2 ≤ countUpperAlpha (" " ++ upperStr (squash_whitespace "BUDI SANTOSO") ++ " ") :=
  ⟨by decide, claim_C7_name_plausibility ["BUDI SANTOSO"] "" "BUDI SANTOSO" (by decide)⟩

/-! C1 and C9: invariants of the component scan state. -/

/-- Invariant of the line-loop state: every key with tracker records is marked found,
the loop itself never sets a resolved amount, and every tracked amount is at most the
cap. -/
def ScanInv (cap : Nat) (st : ScanState) : Prop :=
  (∀ k, st.tracker k ≠ [] → (st.results k).ditemukan = true) ∧
  (∀ k, (st.results k).nilai_int = none) ∧
  (∀ k a raw b, (a, raw, b) ∈ st.tracker k → a ≤ cap)

/-- The initial state satisfies the invariant. -/
theorem scanInv_init (cap : Nat) : ScanInv cap initScanState :=
  ⟨fun _ hk => absurd rfl hk, fun _ => rfl,
   fun _ _ _ _ hmem => absurd hmem (List.not_mem_nil _)⟩

/-- Updating one entry (found, no amount) preserves the invariant. -/
theorem scanInv_set_entry (cap : Nat) (st : ScanState) (key : String) (e : CompEntry)
    (cs : Option String) (h : ScanInv cap st) (hd : e.ditemukan = true)
    (hn : e.nilai_int = none) :
    ScanInv cap ⟨upd st.results key e, st.tracker, cs⟩ := by
  refine ⟨?_, ?_, h.2.2⟩
  · intro k hk
    by_cases hkey : k = key
    · subst hkey
      simp [upd, hd]
    · simp only [upd, if_neg hkey]
      exact h.1 k hk
  · intro k
    by_cases hkey : k = key
    · subst hkey
      simp [upd, hn]
    · simp only [upd, if_neg hkey]
      exact h.2.1 k

/-- Updating one entry (found, no amount) while appending a capped tracker record at
the same key preserves the invariant. -/
theorem scanInv_set_entry_append (cap : Nat) (st : ScanState) (key : String)
    (e : CompEntry) (cs : Option String) (a : Nat) (raw : String) (b : Bool)
    (h : ScanInv cap st) (hd : e.ditemukan = true) (hn : e.nilai_int = none)
    (ha : a ≤ cap) :
    ScanInv cap
      ⟨upd st.results key e, upd st.tracker key (st.tracker key ++ [(a, raw, b)]), cs⟩ := by
  refine ⟨?_, ?_, ?_⟩
  · intro k hk
    by_cases hkey : k = key
    · subst hkey
      simp [upd, hd]
    · simp only [upd, if_neg hkey] at hk ⊢
      exact h.1 k hk
  · intro k
    by_cases hkey : k = key
    · subst hkey
      simp [upd, hn]
    · simp only [upd, if_neg hkey]
      exact h.2.1 k
  · intro k a2 raw2 b2 hmem
    by_cases hkey : k = key
    · subst hkey
      simp only [upd, if_pos rfl] at hmem
      rcases List.mem_append.mp hmem with hm | hm
      · exact h.2.2 _ _ _ _ hm
      · have heq := List.mem_singleton.mp hm
        cases heq
        exact ha
    · simp only [upd, if_neg hkey] at hmem
      exact h.2.2 _ _ _ _ hmem

/-- The header-key step preserves the invariant. -/
theorem scanInv_headerStep (lines upperLines : List String) (cap : Nat) (index : Nat)
    (line ul : String) (st : ScanState) (key : String) (h : ScanInv cap st) :
    ScanInv cap (componentHeaderStep lines upperLines cap index line ul st key) := by
  have hni : (st.results key).nilai_int = none := h.2.1 key
  unfold componentHeaderStep
  dsimp only
  split
  · rename_i v _
    by_cases hcap : cap < v
    · rw [if_pos hcap]
      exact scanInv_set_entry cap st key _ _ h rfl hni
    · rw [if_neg hcap]
      by_cases hrp :
          searchRpDigit (headerAmountStage lines upperLines index line).1 = true
      · rw [if_pos hrp]
        refine scanInv_set_entry_append cap st key _ _ v _ false h ?_ ?_ (by omega)
        · split <;> rfl
        · split <;> exact hni
      · rw [if_neg hrp]
        refine scanInv_set_entry cap st key _ _ h ?_ ?_
        · split <;> rfl
        · split <;> exact hni
  · refine scanInv_set_entry cap st key _ _ h ?_ ?_
    · split <;> rfl
    · split <;> exact hni

/-- The section update preserves the invariant. -/
theorem scanInv_sectionUpdate (cap : Nat) (st : ScanState) (matched : List String)
    (h : ScanInv cap st) : ScanInv cap (sectionUpdate st matched) := by
  unfold sectionUpdate
  split
  · exact h
  · exact ⟨h.1, h.2.1, h.2.2⟩

/-- The summary-subtotal update preserves the invariant. -/
theorem scanInv_summaryUpdate (cap : Nat) (line : String) (sk : Option String)
    (st : ScanState) (h : ScanInv cap st) : ScanInv cap (summaryUpdate cap line sk st) := by
  unfold summaryUpdate
  split
  · exact h
  · split
    · split
      · rename_i sk2 _ a _ hcond
        have ha : a ≤ cap := by
          have hc2 := ((Bool.and_eq_true _ _).mp hcond).1
          simpa using hc2
        exact scanInv_set_entry_append cap st sk2 _ _ a line true h rfl (h.2.1 sk2) ha
      · exact h
    · exact h

/-- One full line iteration preserves the invariant. -/
theorem scanInv_lineStep (lines upperLines : List String) (cap : Nat) (st : ScanState)
    (index : Nat) (h : ScanInv cap st) :
    ScanInv cap (componentLineStep lines upperLines cap st index) := by
  unfold componentLineStep
  exact foldl_preserve (ScanInv cap) _
    (fun a b ha => scanInv_headerStep lines upperLines cap index _ _ a b ha) _ _
    (scanInv_summaryUpdate cap _ _ _ (scanInv_sectionUpdate cap st _ h))

/-- The full scan satisfies the invariant. -/
theorem scanInv_componentScan (text : String) (cap : Nat) :
    ScanInv cap (componentScan text cap) := by
  unfold componentScan
  exact foldl_preserve (ScanInv cap) _
    (fun a b ha => scanInv_lineStep _ _ cap a b ha) _ _ (scanInv_init cap)

/-- Reconciliation never changes the found flag. -/
theorem reconcileEntry_ditemukan (cap : Nat) (key : String) (e : CompEntry)
    (records : List (Nat × String × Bool)) :
    (reconcileEntry cap key e records).ditemukan = e.ditemukan := by
  simp only [reconcileEntry]
  repeat' split
  all_goals rfl

/-- Reconciliation with no records leaves the entry unchanged. -/
theorem reconcileEntry_empty (cap : Nat) (key : String) (e : CompEntry)
    (records : List (Nat × String × Bool)) (hrec : records = []) :
    reconcileEntry cap key e records = e := by
  unfold reconcileEntry
  rw [if_pos (by rw [hrec]; rfl)]

/-- Reconciliation only resolves an amount for keys with records, and it never
changes the found flag. -/
theorem reconcileEntry_nilai (cap : Nat) (key : String) (e : CompEntry)
    (records : List (Nat × String × Bool)) (hd : records ≠ [] → e.ditemukan = true)
    (hn : e.nilai_int = none) :
    (reconcileEntry cap key e records).nilai_int ≠ none →
      (reconcileEntry cap key e records).ditemukan = true := by
  intro hne
  rw [reconcileEntry_ditemukan]
  refine hd fun hemp => ?_
  apply hne
  rw [reconcileEntry_empty cap key e records hemp]
  exact hn

/-- The per-key invariant of the finished component map. -/
def NilaiImpliesFound (c : String → CompEntry) : Prop :=
  ∀ k, (c k).nilai_int ≠ none → (c k).ditemukan = true

/-- The extracted component map satisfies the invariant. -/
theorem extract_components_nilai_found (text : String) (T : Option Nat) :
    NilaiImpliesFound (extract_billing_components text T) := by
  intro k
  have hinv := scanInv_componentScan text (amountCapFor T)
  unfold extract_billing_components
  exact reconcileEntry_nilai _ _ _ _ (fun hne => hinv.1 k hne) (hinv.2.1 k)

/-- Updating one key with an entry satisfying the implication preserves it. -/
theorem nilaiInv_upd (c : String → CompEntry) (key : String) (e : CompEntry)
    (h : NilaiImpliesFound c) (he : e.nilai_int ≠ none → e.ditemukan = true) :
    NilaiImpliesFound (upd c key e) := by
  intro k hk
  by_cases hkey : k = key
  · subst hkey
    simp only [upd, if_pos rfl] at hk ⊢
    exact he hk
  · simp only [upd, if_neg hkey] at hk ⊢
    exact h k hk

/-- The non-bedah fallback preserves the implication. -/
theorem nonBedahFallback_inv (text : String) (cap : Nat) (c : String → CompEntry)
    (h : NilaiImpliesFound c) : NilaiImpliesFound (nonBedahFallback text cap c) := by
  simp only [nonBedahFallback]
  split
  · split
    · exact nilaiInv_upd c _ _ h fun _ => rfl
    · exact h
  · exact h

/-- The BMHP fallback preserves the implication. -/
theorem bmhpFallback_inv (text : String) (cap : Nat) (c : String → CompEntry)
    (h : NilaiImpliesFound c) : NilaiImpliesFound (bmhpFallback text cap c).1 := by
  simp only [bmhpFallback]
  split
  · exact h
  · split
    · exact nilaiInv_upd c _ _ h fun _ => rfl
    · exact h

/-- The obat adjustment preserves the implication. -/
theorem obatAdjust_inv (s : (String → CompEntry) × Bool × Option Nat)
    (h : NilaiImpliesFound s.1) : NilaiImpliesFound (obatAdjust s) := by
  simp only [obatAdjust]
  split
  · exact h
  · split
    · exact h
    · rename_i obat_amount hsome
      split
      · exact h
      · split
        · exact h
        · split
          · split
            · exact h
            · split
              · exact h
              · refine nilaiInv_upd s.1 _ _ h fun _ => ?_
                refine h "obat" ?_
                rw [hsome]
                simp
          · exact h

/-- The fallbacks preserve the implication. -/
theorem fallbacks_nilai_found (text : String) (T : Option Nat) (c : String → CompEntry)
    (h : NilaiImpliesFound c) : NilaiImpliesFound (apply_component_fallbacks text c T) := by
  unfold apply_component_fallbacks
  exact obatAdjust_inv _ (bmhpFallback_inv _ _ _ (nonBedahFallback_inv _ _ _ h))

/-- C9: in the component map produced by component extraction — including after the
conservative fallbacks — an entry with a resolved amount is always marked found,
while an entry may be marked found with no amount (as the label-only line
`"KONSULTASI"` realizes). -/
theorem claim_C9_amount_implies_found (text : String) (T : Option Nat) (k : String) :
    ((extract_billing_components text T k).nilai_int ≠ none →
      (extract_billing_components text T k).ditemukan = true) ∧
    ((apply_component_fallbacks text (extract_billing_components text T) T k).nilai_int ≠
        none →
      (apply_component_fallbacks text (extract_billing_components text T) T k).ditemukan =
        true) ∧
    ((extract_billing_components "KONSULTASI" none "konsultasi").ditemukan = true ∧
      (extract_billing_components "KONSULTASI" none "konsultasi").nilai_int = none) := by
  refine ⟨extract_components_nilai_found text T k, ?_, by decide⟩
  exact fallbacks_nilai_found text T _ (extract_components_nilai_found text T) k

/-- C9 witness: the invariant applied to a concrete extraction with a resolved
amount. -/
theorem claim_C9_amount_implies_found_witness :
    (extract_billing_components "KONSULTASI Rp. 100.000" none "konsultasi").ditemukan =
      true :=
  (claim_C9_amount_implies_found "KONSULTASI Rp. 100.000" none "konsultasi").1 (by decide)

/-! C1: individual candidate amounts are capped; resolved sums can exceed the cap. -/

/-- One `_sum_amount_by_keywords` line step keeps every collected amount capped. -/
theorem sumAmountStep_le_cap (cap : Nat) (inc exc : List String)
    (acc : List String × List (Nat × String)) (line : String)
    (ha : ∀ p ∈ acc.2, p.1 ≤ cap) :
    ∀ p ∈ (sumAmountStep cap inc exc acc line).2, p.1 ≤ cap := by
  simp only [sumAmountStep]
  split
  · exact ha
  · split
    · exact ha
    · split
      · exact ha
      · split
        · exact ha
        · split
          · exact ha
          · split
            · exact ha
            · rename_i amount hamt hcap hseen
              intro p hp
              rcases List.mem_append.mp hp with hm | hm
              · exact ha p hm
              · have heq := List.mem_singleton.mp hm
                subst heq
                simp only [Bool.or_eq_true, decide_eq_true_eq, not_or] at hcap
                omega

/-- Every keyword-fallback line hit is individually capped. -/
theorem sumAmountHits_le_cap (text : String) (inc exc : List String) (cap : Nat) :
    ∀ p ∈ sumAmountHits text inc exc cap, p.1 ≤ cap := by
  unfold sumAmountHits
  refine foldl_preserve
    (fun acc : List String × List (Nat × String) => ∀ p ∈ acc.2, p.1 ≤ cap)
    (sumAmountStep cap inc exc) ?_ _ _ ?_
  · intro a b ha
    exact sumAmountStep_le_cap cap inc exc a b ha
  · intro p hp
    exact absurd hp (List.not_mem_nil p)

/-- C1 counterexample: with found total `T = 2_000_000` (cap `3_000_000`), two
distinct radiologi subtotal lines of 2.5M and 2.9M — each individually within the
cap — are summed by the `sum_summary` strategy to a resolved amount of 5.4M, which
exceeds `max(2_000_000, 1.5 × T)`; the fallbacks leave it in place. -/
theorem claim_C1_counterexample :
    (apply_component_fallbacks
        "JUMLAH RADIOLOGI Rp. 2.500.000\nJUMLAH RADIOLOGI Rp. 2.900.000"
        (extract_billing_components
          "JUMLAH RADIOLOGI Rp. 2.500.000\nJUMLAH RADIOLOGI Rp. 2.900.000"
          (some 2000000))
        (some 2000000) "radiologi").nilai_int = some 5400000 ∧
    max 2000000 (3 * 2000000 / 2) = 3000000 ∧ (3000000 : Nat) < 5400000 := by
  refine ⟨by decide, by decide, by decide⟩

/-- C1 (amended): with a found total `T`, every individual candidate amount admitted
toward a component — each record of the line-scan tracker, and each keyword-fallback
line hit — is at most `max(2_000_000, ⌊1.5 × T⌋)`; resolved component amounts are
sums or maxima of these capped candidates and can therefore exceed the cap only when
several distinct lines contribute. -/
theorem claim_C1_candidate_amounts_capped (text : String) (t : Nat) :
    (∀ k a raw b, (a, raw, b) ∈ (componentScan text (amountCapFor (some t))).tracker k →
      a ≤ max 2000000 (3 * t / 2)) ∧
    (∀ inc exc a raw, (a, raw) ∈ sumAmountHits text inc exc (amountCapFor (some t)) →
      a ≤ max 2000000 (3 * t / 2)) := by
  constructor
  · intro k a raw b hmem
    exact (scanInv_componentScan text (amountCapFor (some t))).2.2 k a raw b hmem
  · intro inc exc a raw hmem
    exact sumAmountHits_le_cap text inc exc (amountCapFor (some t)) (a, raw) hmem

/-- C1 witness: the per-candidate cap applied to a concrete tracker record and a
concrete fallback hit. -/
theorem claim_C1_candidate_amounts_capped_witness :
    (100000 : Nat) ≤ max 2000000 (3 * 2000000 / 2) ∧
    (50000 : Nat) ≤ max 2000000 (3 * 2000000 / 2) :=
  ⟨(claim_C1_candidate_amounts_capped "JUMLAH RADIOLOGI Rp. 100.000" 2000000).1
      "radiologi" 100000 "JUMLAH RADIOLOGI Rp. 100.000" true (by decide),
   (claim_C1_candidate_amounts_capped "PASANG INFUS Rp 50.000" 2000000).2
      nonBedahFallbackKeywords nonBedahFallbackExclude 50000 "PASANG INFUS Rp 50.000"
      (by decide)⟩

/-! C5: the segment selector returns the first-seen group with the lexicographically
greatest score tuple. -/

/-- Python tuple `>` on score triples, characterised as a lexicographic proposition. -/
theorem keyGT3_iff (a b : Int × Int × Int) :
    keyGT3 a b = true ↔
      (b.1 < a.1 ∨ (a.1 = b.1 ∧ (b.2.1 < a.2.1 ∨ (a.2.1 = b.2.1 ∧ b.2.2 < a.2.2)))) := by
  simp [keyGT3]

/-- Strict tuple comparison is irreflexive. -/
theorem keyGT3_irrefl (a : Int × Int × Int) : keyGT3 a a = false := by
  rw [Bool.eq_false_iff, Ne, keyGT3_iff]
  omega

/-- Strict tuple comparison is asymmetric. -/
theorem keyGT3_asymm (a b : Int × Int × Int) (h : keyGT3 a b = true) :
    keyGT3 b a = false := by
  rw [keyGT3_iff] at h
  rw [Bool.eq_false_iff, Ne, keyGT3_iff]
  omega

/-- Strict tuple comparison is transitive. -/
theorem keyGT3_trans (a b c : Int × Int × Int) (h1 : keyGT3 a b = true)
    (h2 : keyGT3 b c = true) : keyGT3 a c = true := by
  rw [keyGT3_iff] at h1 h2 ⊢
  omega

/-- From `a ≤ b` (no strict gain) and `b < c` one gets `a < c` on score triples. -/
theorem keyGT3_of_not_of_gt (a b c : Int × Int × Int) (h1 : keyGT3 a b = false)
    (h2 : keyGT3 c b = true) : keyGT3 c a = true := by
  rw [Bool.eq_false_iff, Ne, keyGT3_iff] at h1
  rw [keyGT3_iff] at h2 ⊢
  omega

/-- Every real score tuple beats the `(-1, -1, -1)` seed of the selection loop. -/
theorem keyGT3_init (s : String) : keyGT3 (segmentSortKey s) (-1, -1, -1) = true := by
  have h0 : 0 ≤ (segmentSortKey s).1 := by
    simp only [segmentSortKey]
    exact Int.natCast_nonneg _
  rw [keyGT3_iff]
  left
  show (-1 : Int) < (segmentSortKey s).1
  omega

/-- The best-segment fold from a realised state either keeps the seed — and then no
element scores strictly above it — or lands on the first element that strictly
improves to the maximum score. -/
theorem selectFold_spec (L : List String) (cur : String) :
    (L.foldl selectStep (cur, segmentSortKey cur) = (cur, segmentSortKey cur) ∧
      ∀ j, ∀ hj : j < L.length,
        keyGT3 (segmentSortKey (L.get ⟨j, hj⟩)) (segmentSortKey cur) = false) ∨
    (∃ i, ∃ hi : i < L.length,
      L.foldl selectStep (cur, segmentSortKey cur) =
        (L.get ⟨i, hi⟩, segmentSortKey (L.get ⟨i, hi⟩)) ∧
      keyGT3 (segmentSortKey (L.get ⟨i, hi⟩)) (segmentSortKey cur) = true ∧
      (∀ j, ∀ hj : j < L.length,
        keyGT3 (segmentSortKey (L.get ⟨j, hj⟩))
          (segmentSortKey (L.get ⟨i, hi⟩)) = false) ∧
      (∀ j, ∀ hj : j < L.length, j < i →
        keyGT3 (segmentSortKey (L.get ⟨i, hi⟩))
          (segmentSortKey (L.get ⟨j, hj⟩)) = true)) := by
  induction L generalizing cur with
  | nil =>
    exact Or.inl ⟨rfl, fun j hj => absurd hj (Nat.not_lt_zero j)⟩
  | cons s T ih =>
    cases hgt : keyGT3 (segmentSortKey s) (segmentSortKey cur) with
    | false =>
      have hfold : (s :: T).foldl selectStep (cur, segmentSortKey cur) =
          T.foldl selectStep (cur, segmentSortKey cur) := by
        rw [List.foldl_cons]
        congr 1
        simp [selectStep, hgt]
      rcases ih cur with ⟨heq, hmax⟩ | ⟨i, hi, heq, himp, hmax, hstrict⟩
      · refine Or.inl ⟨by rw [hfold, heq], ?_⟩
        intro j hj
        cases j with
        | zero => exact hgt
        | succ j => exact hmax j (Nat.lt_of_succ_lt_succ hj)
      · refine Or.inr ⟨i + 1, Nat.succ_lt_succ hi, by rw [hfold, heq]; rfl, himp, ?_, ?_⟩
        · intro j hj
          cases j with
          | zero => exact keyGT3_asymm _ _ (keyGT3_of_not_of_gt _ _ _ hgt himp)
          | succ j => exact hmax j (Nat.lt_of_succ_lt_succ hj)
        · intro j hj hji
          cases j with
          | zero => exact keyGT3_of_not_of_gt _ _ _ hgt himp
          | succ j =>
            exact hstrict j (Nat.lt_of_succ_lt_succ hj) (Nat.lt_of_succ_lt_succ hji)
    | true =>
      have hfold : (s :: T).foldl selectStep (cur, segmentSortKey cur) =
          T.foldl selectStep (s, segmentSortKey s) := by
        rw [List.foldl_cons]
        congr 1
        simp [selectStep, hgt]
      rcases ih s with ⟨heq, hmax⟩ | ⟨i, hi, heq, himp, hmax, hstrict⟩
      · refine Or.inr ⟨0, Nat.succ_pos _, by rw [hfold, heq]; rfl, hgt, ?_, ?_⟩
        · intro j hj
          cases j with
          | zero => exact keyGT3_irrefl _
          | succ j => exact hmax j (Nat.lt_of_succ_lt_succ hj)
        · intro j hj hji
          exact absurd hji (Nat.not_lt_zero j)
      · refine Or.inr ⟨i + 1, Nat.succ_lt_succ hi, by rw [hfold, heq]; rfl,
          keyGT3_trans _ _ _ himp hgt, ?_, ?_⟩
        · intro j hj
          cases j with
          | zero => exact keyGT3_asymm _ _ himp
          | succ j => exact hmax j (Nat.lt_of_succ_lt_succ hj)
        · intro j hj hji
          cases j with
          | zero => exact himp
          | succ j =>
            exact hstrict j (Nat.lt_of_succ_lt_succ hj) (Nat.lt_of_succ_lt_succ hji)

/-- A list with `isEmpty = false` has positive length. -/
theorem length_pos_of_not_isEmpty {α : Type} (l : List α) (h : ¬ l.isEmpty = true) :
    0 < l.length := by
  cases l with
  | nil => exact absurd rfl h
  | cons a t => exact Nat.succ_pos _

/-- The grouped candidate list is nonempty whenever segmentation produced segments. -/
theorem groupedCandidates_length_pos (text : String)
    (h : 0 < (split_billing_segments text).length) :
    0 < (groupedCandidates text).length := by
  simp only [groupedCandidates]
  split
  · exact h
  · rename_i hg
    exact length_pos_of_not_isEmpty _ hg

/-- C5: when a document splits into at least two episode-header segments, the
selector returns the grouped candidate whose score tuple (total, component hits,
subtotal markers + total-phrase presence) is lexicographically greatest under the
Python tuple order, and on ties the first-seen group: no group scores strictly above
the selected one, and the selected one scores strictly above every earlier group. -/
theorem claim_C5_segment_selection (text : String)
    (h2 : 2 ≤ (split_billing_segments text).length) :
    ∃ i, ∃ hi : i < (groupedCandidates text).length,
      select_primary_billing_text text = (groupedCandidates text).get ⟨i, hi⟩ ∧
      (∀ j, ∀ hj : j < (groupedCandidates text).length,
        keyGT3 (segmentSortKey ((groupedCandidates text).get ⟨j, hj⟩))
          (segmentSortKey ((groupedCandidates text).get ⟨i, hi⟩)) = false) ∧
      (∀ j, ∀ hj : j < (groupedCandidates text).length, j < i →
        keyGT3 (segmentSortKey ((groupedCandidates text).get ⟨i, hi⟩))
          (segmentSortKey ((groupedCandidates text).get ⟨j, hj⟩)) = true) := by
  have hne : ¬ (split_billing_segments text).isEmpty = true := by
    cases hs : split_billing_segments text with
    | nil => rw [hs] at h2; exact absurd h2 (by decide)
    | cons a l => exact (by simp)
  have h1 : ¬ (split_billing_segments text).length = 1 := by omega
  have hgpos : 0 < (groupedCandidates text).length :=
    groupedCandidates_length_pos text (by omega)
  cases hg : groupedCandidates text with
  | nil => rw [hg] at hgpos; exact absurd hgpos (by decide)
  | cons c T =>
    have hinit : selectStep ((c :: T).getD 0 "", (-1, -1, -1)) c =
        (c, segmentSortKey c) := by
      simp [selectStep, keyGT3_init]
    have hsel : select_primary_billing_text text =
        (T.foldl selectStep (c, segmentSortKey c)).1 := by
      simp only [select_primary_billing_text]
      rw [if_neg hne, if_neg h1]
      rw [hg, List.foldl_cons, hinit]
    rcases selectFold_spec T c with ⟨heq, hmax⟩ | ⟨i, hi, heq, himp, hmax, hstrict⟩
    · refine ⟨0, Nat.succ_pos _, ?_, ?_, ?_⟩
      · rw [hsel, heq]; rfl
      · intro j hj
        cases j with
        | zero => exact keyGT3_irrefl _
        | succ j => exact hmax j (Nat.lt_of_succ_lt_succ hj)
      · intro j hj hji
        exact absurd hji (Nat.not_lt_zero j)
    · refine ⟨i + 1, Nat.succ_lt_succ hi, ?_, ?_, ?_⟩
      · rw [hsel, heq]; rfl
      · intro j hj
        cases j with
        | zero => exact keyGT3_asymm _ _ himp
        | succ j => exact hmax j (Nat.lt_of_succ_lt_succ hj)
      · intro j hj hji
        cases j with
        | zero => exact himp
        | succ j =>
          exact hstrict j (Nat.lt_of_succ_lt_succ hj) (Nat.lt_of_succ_lt_succ hji)

/-- C5 witness: the two-episode sample document has two segments and the selector
picks the first-seen lexicographically greatest group. -/
theorem claim_C5_segment_selection_witness :
    2 ≤ (split_billing_segments docTwoEpisodes).length ∧
    (∃ i, ∃ hi : i < (groupedCandidates docTwoEpisodes).length,
      select_primary_billing_text docTwoEpisodes =
        (groupedCandidates docTwoEpisodes).get ⟨i, hi⟩ ∧
      (∀ j, ∀ hj : j < (groupedCandidates docTwoEpisodes).length,
        keyGT3 (segmentSortKey ((groupedCandidates docTwoEpisodes).get ⟨j, hj⟩))
          (segmentSortKey ((groupedCandidates docTwoEpisodes).get ⟨i, hi⟩)) = false) ∧
      (∀ j, ∀ hj : j < (groupedCandidates docTwoEpisodes).length, j < i →
        keyGT3 (segmentSortKey ((groupedCandidates docTwoEpisodes).get ⟨i, hi⟩))
          (segmentSortKey ((groupedCandidates docTwoEpisodes).get ⟨j, hj⟩)) = true)) :=
  ⟨by decide, claim_C5_segment_selection docTwoEpisodes (by decide)⟩

end BillingParser
